import Mathlib

/-!
Verification development for the bigscan BIG-IP inventory tool.

This file gives a shallow embedding, in Lean 4, of the artifact
create/poll/download/cleanup pipeline implemented in
`modules/qkview_handler.py` (class `QKViewHandler`) and
`modules/ucs_handler.py` (class `UCSHandler`), and proves properties of
that embedding.

Modelling conventions:
* Every remote interaction (HTTP request or remote shell command) is
  recorded as an `Event`; each embedded function returns its result
  together with the list of events it emitted, in order.
* The network is an oracle: environment records/functions supply the
  responses the device would return (HTTP status codes, JSON fields,
  captured shell command output).  A transport exception is a dedicated
  response constructor.
* Local files are byte lists (`List Nat`); `os.path.getsize` is `List.length`
  and reading the first 100 bytes is `List.take 100`.
* Wall-clock time advances only at the explicit `time.sleep` calls of the
  polling loops (15 seconds per poll iteration); loops are driven by a fuel
  parameter chosen large enough (`timeout + 1`) that the fuel can never run
  out before the deadline guard does, which is proved where needed.
* Python float expressions `expected * 0.95` are modelled as the exact
  rational comparison `19 * expected ≤ 20 * actual`.
* Console printing is ignored, and `datetime`-derived artifact names are
  taken as parameters.
-/

namespace Bigscan

/-- One remote interaction of a run: an HTTP request against the device
management API, a remote shell command sent through the bash endpoint, or
(`prompt`) a blocking read from the operator on stdin. -/
inductive Event
  /-- POST creating an artifact task (qkview autodeploy or ucs task endpoint). -/
  | createTaskPost
  /-- PUT moving a UCS task to VALIDATING so it starts executing. -/
  | validatePut
  /-- GET of a task status resource. -/
  | statusGet
  /-- HTTP DELETE of a task record. -/
  | taskDelete
  /-- POST to the unix-mv endpoint (arguments `src dst`). -/
  | unixMv (src : String) (dst : String)
  /-- POST to the unix-rm endpoint. -/
  | unixRm (path : String)
  /-- bash `ls` style listing probe. -/
  | bashLs (arg : String)
  /-- bash `mv` fallback move. -/
  | bashMv (src : String) (dst : String)
  /-- bash `cp` copy into the staging directory. -/
  | bashCp (src : String) (dst : String)
  /-- bash `rm -f` of a remote file. -/
  | bashRm (path : String)
  /-- bash forced `rm -rf ...; sync` retry of a remote delete. -/
  | bashRmForce (path : String)
  /-- bash `stat` size query. -/
  | bashStat (arg : String)
  /-- bash conditional probe (`if [ -f ... ]` / readability test). -/
  | bashCheck (arg : String)
  /-- bash `dd | base64` byte-range read of a remote file. -/
  | bashDd (start : Nat) (count : Nat)
  /-- one byte-range GET of the chunked direct-URI transfer. -/
  | rangeGet (rstart : Int) (rstop : Int)
  /-- plain streaming GET against the file-transfer download endpoint. -/
  | transferGet (filename : String)
  /-- blocking `input(msg)` read from the operator. -/
  | prompt (msg : String)
deriving DecidableEq

/-- An event is destructive when it deletes remote state: an HTTP DELETE of
a task record, or any remove-file command. -/
def destructive : Event → Bool
  | .taskDelete => true
  | .unixRm _ => true
  | .bashRm _ => true
  | .bashRmForce _ => true
  | _ => false

/-- Response to one bash-endpoint POST: HTTP status plus the optional
`commandResult` field of the JSON body (`none` when the field is absent). -/
structure CmdResp where
  status : Nat
  result : Option String
deriving DecidableEq

/-- Whitespace test used by the string helpers (space, tab, LF, CR). -/
def isWsChar (c : Char) : Bool :=
  c.toNat = 32 ∨ c.toNat = 9 ∨ c.toNat = 10 ∨ c.toNat = 13

/-- Does the character list start with the given pattern? -/
def chPatAt : List Char → List Char → Bool
  | [], _ => true
  | _ :: _, [] => false
  | p :: ps, c :: cs => p == c && chPatAt ps cs

/-- Does the pattern occur somewhere in the character list? -/
def chContains (pat : List Char) : List Char → Bool
  | [] => chPatAt pat []
  | c :: cs => chPatAt pat (c :: cs) || chContains pat cs

/-- If the list starts with the pattern, the remainder after it. -/
def afterPat : List Char → List Char → Option (List Char)
  | [], rest => some rest
  | _ :: _, [] => none
  | p :: ps, c :: cs => if p = c then afterPat ps cs else none

/-- Python `sub in s` on strings. -/
def containsStr (s : String) (pat : String) : Bool :=
  chContains pat.data s.data

/-- Python `str.strip()`. -/
def strTrim (s : String) : String :=
  ⟨((s.data.dropWhile isWsChar).reverse.dropWhile isWsChar).reverse⟩

/-- ASCII `str.lower()` on a single character. -/
def chToLower (c : Char) : Char :=
  if 65 ≤ c.toNat ∧ c.toNat ≤ 90 then Char.ofNat (c.toNat + 32) else c

/-- ASCII `str.lower()`. -/
def strLower (s : String) : String :=
  ⟨s.data.map chToLower⟩

/-- Helper of `strSplitWs`: split a character list at whitespace runs. -/
def splitWsAux : List Char → List Char → List String
  | [], acc => if acc.isEmpty then [] else [⟨acc.reverse⟩]
  | c :: cs, acc =>
    if isWsChar c then
      if acc.isEmpty then splitWsAux cs []
      else ⟨acc.reverse⟩ :: splitWsAux cs []
    else splitWsAux cs (c :: acc)

/-- Python `str.split()` (split on whitespace, dropping empty fields). -/
def splitWs (s : String) : List String :=
  splitWsAux s.data []

/-- Helper of `strLines`: split a character list at a separator character,
keeping empty fields. -/
def splitChAux (sep : Char) : List Char → List Char → List String
  | [], acc => [⟨acc.reverse⟩]
  | c :: cs, acc =>
    if c = sep then ⟨acc.reverse⟩ :: splitChAux sep cs []
    else splitChAux sep cs (c :: acc)

/-- Python `s.split(LF)`: split into lines, keeping empty fields. -/
def strLines (s : String) : List String :=
  splitChAux (Char.ofNat 10) s.data []

/-- Digit run to number; `none` on a non-digit or an empty run. -/
def digitsToNat : List Char → Option Nat
  | [] => none
  | cs =>
    if cs.all (fun c => 48 ≤ c.toNat ∧ c.toNat ≤ 57) then
      some (cs.foldl (fun a c => a * 10 + (c.toNat - 48)) 0)
    else none

/-- Python `int(s)` restricted to plain digit strings, as `String.toNat?`. -/
def strToNat (s : String) : Option Nat :=
  digitsToNat s.data

/-- Python `s.startswith(pat)`. -/
def strStarts (s : String) (pat : String) : Bool :=
  chPatAt pat.data s.data

/-- Python `s.endswith(pat)`. -/
def strEnds (s : String) (pat : String) : Bool :=
  chPatAt pat.data.reverse s.data.reverse

/-- Fueled all-occurrence replacement on character lists. -/
def replaceChars (pat repl : List Char) : Nat → List Char → List Char
  | _, [] => []
  | 0, l => l
  | fuel + 1, c :: cs =>
    match afterPat pat (c :: cs) with
    | some rest => repl ++ replaceChars pat repl fuel rest
    | none => c :: replaceChars pat repl fuel cs

/-- Python `s.replace(pat, repl)` (all occurrences). -/
def strReplace (s : String) (pat repl : String) : String :=
  ⟨replaceChars pat.data repl.data s.data.length s.data⟩

/-- Python `s[-n:]`: the last `n` characters of a string. -/
def lastChars (n : Nat) (s : String) : String :=
  ⟨s.data.drop (s.data.length - n)⟩

/-- ASCII `bytes.lower` on a single byte. -/
def lowerByte (b : Nat) : Nat :=
  if 65 ≤ b ∧ b ≤ 90 then b + 32 else b

/-- Does the byte list start with the given pattern? -/
def patAt : List Nat → List Nat → Bool
  | [], _ => true
  | _ :: _, [] => false
  | p :: ps, x :: xs => p == x && patAt ps xs

/-- Python `pat in bs` on byte strings: the pattern occurs somewhere. -/
def containsPat (p : List Nat) : List Nat → Bool
  | [] => patAt p []
  | x :: xs => patAt p (x :: xs) || containsPat p xs

/-- The bytes of `<html>`. -/
def htmlMarker : List Nat := [60, 104, 116, 109, 108, 62]

/-- The bytes of `error`. -/
def errorMarker : List Nat := [101, 114, 114, 111, 114]

/-- The error-page sniff of both handlers: lowercase the sampled bytes and
look for `<html>` or `error`. -/
def hasMarkers (bs : List Nat) : Bool :=
  let low := bs.map lowerByte
  containsPat htmlMarker low || containsPat errorMarker low

/-- `|a - b|` on naturals. -/
def natDiff (a b : Nat) : Nat := max a b - min a b

/-!
## QKView chunked direct-URI download
(`QKViewHandler._download_chunked_f5_method`, qkview_handler.py lines 420-593)
-/

/-- Server response to one byte-range request of the chunked transfer.
`ok total body` is an HTTP 200 whose Content-Range header ends in `/total`
(`total = none` when that suffix is not an integer) and whose streamed body
is `body`; `code206` / `code400` / `codeOther` / `exn` are the other
branches the source distinguishes. -/
inductive RangeResp
  | ok (total : Option Nat) (body : List Nat)
  | code206
  | code400
  | codeOther (code : Nat)
  | exn
deriving DecidableEq

/-- Mutable state of the chunked loop: the requested range `[start, stop]`,
the 0-based last byte position `size` (0 while still unknown, as in the
source), the `current_bytes` counter, and the bytes written so far. -/
structure QkChunkSt where
  start : Int
  stop : Int
  size : Int
  current : Int
  written : List Nat
deriving DecidableEq

/-- 512KB, the chunk size hard-coded in the qkview handler. -/
def qkChunkSize : Int := 512 * 1024

/-- Outcome of one loop iteration: continue with a new state, break out of
the loop (success path), or return `(False, 0)` from inside the loop. -/
inductive QkStepRes
  | next (st : QkChunkSt)
  | brk (st : QkChunkSt)
  | fail (st : QkChunkSt)
deriving DecidableEq

/-- Tail of the HTTP 200 branch of the loop body, after the first-response
size discovery: write the body when the size is known to be positive, bump
`current_bytes` by a whole chunk, stop when `end == size`, otherwise advance
the range by one chunk (clamping the final range end to `size`). -/
def qkAfter200 (st : QkChunkSt) (body : List Nat) : QkStepRes :=
  let st :=
    if st.size > 0 then
      { st with current := st.current + qkChunkSize, written := st.written ++ body }
    else st
  if st.stop == st.size then .brk st
  else
    let start := st.start + qkChunkSize
    let stop :=
      if st.current + qkChunkSize > st.size + 1 then st.size
      else start + qkChunkSize - 1
    .next { st with start := start, stop := stop }

/-- One iteration of the chunked-download while loop, after the range GET
returned `r` (qkview_handler.py lines 457-544). On the first 200 response
the total size is learned from the Content-Range header as
`int(crange.split(slash)[-1]) - 1`; a 206 merely re-enters the loop; a 400
is accepted as end-of-file when the bytes written are within 1KB of the
expected total; anything else fails the strategy. -/
def qkChunkStep (st : QkChunkSt) (r : RangeResp) : QkStepRes :=
  match r with
  | .ok total body =>
    if st.size == 0 then
      match total with
      | none => .fail st
      | some T =>
        let size : Int := (T : Int) - 1
        let stop := if qkChunkSize > size then size else st.stop
        qkAfter200 { st with size := size, stop := stop } body
    else qkAfter200 st body
  | .code206 => .next st
  | .code400 =>
    if 0 < st.written.length ∧ 0 < st.size ∧
        ((st.written.length : Int) - (st.size + 1)).natAbs ≤ 1024 then
      .brk st
    else .fail st
  | .codeOther _ => .fail st
  | .exn => .fail st

/-- Result of the chunked loop: `done` when the loop broke out normally,
`failed` when a branch returned `(False, 0)`, `fuelOut` when the fuel ran
out (the source loop has no iteration bound of its own). -/
inductive QkChunkOut
  | done (st : QkChunkSt) (tr : List Event)
  | failed (st : QkChunkSt) (tr : List Event)
  | fuelOut (st : QkChunkSt) (tr : List Event)
deriving DecidableEq

/-- Prepend an event to the trace of a loop outcome. -/
def QkChunkOut.consTr (e : Event) : QkChunkOut → QkChunkOut
  | .done st tr => .done st (e :: tr)
  | .failed st tr => .failed st (e :: tr)
  | .fuelOut st tr => .fuelOut st (e :: tr)

/-- The chunked-download while loop; `env i` is the response to the `i`-th
range request (0-based). -/
def qkChunkLoop (env : Nat → RangeResp) : Nat → Nat → QkChunkSt → QkChunkOut
  | 0, _, st => .fuelOut st []
  | fuel + 1, i, st =>
    let ev := Event.rangeGet st.start st.stop
    match qkChunkStep st (env i) with
    | .next st2 => (qkChunkLoop env fuel (i + 1) st2).consTr ev
    | .brk st2 => .done st2 [ev]
    | .fail st2 => .failed st2 [ev]

/-- Initial loop state: `start = 0`, `end = chunk_size - 1`, `size = 0`,
`current_bytes = 0`, empty local file. -/
def qkChunkInit : QkChunkSt := ⟨0, qkChunkSize - 1, 0, 0, []⟩

/-- Final-size sanity check shared by the post-loop code: files below 1MB
are sniffed for HTML/error markers in their first 100 bytes and rejected
when markers are found (qkview_handler.py lines 574-588). -/
def qkSniff (content : List Nat) : Bool × Nat :=
  if content.length < 1024 * 1024 then
    if hasMarkers (content.take 100) then (false, content.length)
    else (true, content.length)
  else (true, content.length)

/-- Post-loop verification of the chunked download (qkview_handler.py lines
546-588): when a total size was learned, accept an exact match, a ≤1KB
difference, or at least 95 percent of the expected byte count (modelled as
`19 * expected ≤ 20 * final`); otherwise return failure. Surviving files
then go through the small-file sniff. -/
def qkChunkFinish (size : Int) (content : List Nat) : Bool × Nat :=
  let final : Int := content.length
  if size > 0 then
    let expected := size + 1
    let diff := (final - expected).natAbs
    if diff == 0 then qkSniff content
    else if diff ≤ 1024 then qkSniff content
    else if 19 * expected ≤ 20 * final then qkSniff content
    else (false, content.length)
  else qkSniff content

/-- Oracle for one chunked-download attempt: loop fuel plus the per-request
responses. -/
structure QkChunkEnv where
  fuel : Nat
  resp : Nat → RangeResp

/-- `QKViewHandler._download_chunked_f5_method`: run the range-request loop
and, if it breaks out normally, the post-loop verification. The
`url`/`filename` arguments of the source only feed requests and local
paths, so they are not used by the model beyond being received. -/
def download_chunked_f5_method (env : QkChunkEnv) : (Bool × Nat) × List Event :=
  match qkChunkLoop env.resp env.fuel 0 qkChunkInit with
  | .done st tr => (qkChunkFinish st.size st.written, tr)
  | .failed _ tr => ((false, 0), tr)
  | .fuelOut _ tr => ((false, 0), tr)

/-!
## QKView plain fetch (`QKViewHandler._perform_download`, lines 741-829)
-/

/-- Oracle for one plain streaming download: `exn` covers a request
exception, a timeout or a `raise_for_status` failure; `contentLength` is
the Content-Length header (0 when absent); `body` is the streamed payload
that gets written to disk. -/
structure PdEnv where
  exn : Bool
  contentLength : Nat
  body : List Nat

/-- `QKViewHandler._perform_download`: stream the body to disk, sniff files
under 5MB for HTML/error markers, then require the final size to be within
1KB of the Content-Length when one was reported. Note this function has no
95-percent fallback. -/
def perform_download (filename : String) (env : PdEnv) : (Bool × Nat) × List Event :=
  let tr := [Event.transferGet filename]
  if env.exn then ((false, 0), tr)
  else
    let final := env.body.length
    if final < 5 * 1024 * 1024 ∧ hasMarkers (env.body.take 100) then
      ((false, final), tr)
    else if 0 < env.contentLength ∧ 1024 < natDiff final env.contentLength then
      ((false, final), tr)
    else ((true, final), tr)

/-!
## QKView task payload and file locator
-/

/-- The fields of the autodeploy task JSON that the handler reads: the
reported task `status`, the artifact `name` and the optional `qkviewUri`
download link. -/
structure QkInfo where
  status : String
  name : Option String
  qkviewUri : Option String
deriving DecidableEq

/-- Host part of the configured base URL (`base_url.split(slash-slash)[1]`). -/
def hostOf (baseUrl : String) : String :=
  ((splitChAux (Char.ofNat 47) baseUrl.data []).getD 2 "")

/-- URL rewrite of `_download_via_autodeploy_uri` (lines 404-409): replace a
loopback hostname with the device host, keep an absolute https URL, or
prefix the device host otherwise. -/
def rewrite_download_url (host : String) (uri : String) : String :=
  if containsStr uri "localhost" then strReplace uri "localhost" host
  else if strStarts uri "https://" then uri
  else "https://" ++ host ++ uri

/-- The fixed candidate locations probed by `_find_qkview_file`. -/
def qkSearchLocations (fn : String) : List String :=
  ["/var/tmp/" ++ fn, "/shared/support/" ++ fn, "/var/core/" ++ fn,
   "/shared/core/" ++ fn, "/var/log/" ++ fn, "/shared/images/" ++ fn]

/-- The glob patterns probed by `_find_qkview_file` when no exact location
hits. -/
def qkSearchPatterns (fn : String) : List String :=
  ["/var/tmp/*" ++ lastChars 20 fn ++ "*", "/var/tmp/*.qkview",
   "/shared/support/*.qkview", "/var/core/*.qkview"]

/-- Scan one block of `ls -la` output for a line that mentions `.qkview`
and the expected filename, has at least 9 whitespace fields, and whose last
field is an absolute path (qkview_handler.py lines 373-383). -/
def parseQkLsLines (fn : String) : List String → Option String
  | [] => none
  | line :: rest =>
    if containsStr line ".qkview" ∧ containsStr line fn then
      let parts := splitWs line
      if parts.length ≥ 9 then
        let found := (parts.getLast?).getD ""
        if strStarts found "/" then some found else parseQkLsLines fn rest
      else parseQkLsLines fn rest
    else parseQkLsLines fn rest

/-- Probe the exact candidate locations in order; a location is a hit when
the bash `ls` comes back 200 with a `commandResult` that is nonempty and
does not contain the `NOT_FOUND` sentinel. -/
def qkFindLocLoop (env : Nat → CmdResp) : Nat → List String → Option String × List Event
  | _, [] => (none, [])
  | i, loc :: rest =>
    let r := env i
    let ev := Event.bashLs loc
    let miss :=
      let r2 := qkFindLocLoop env (i + 1) rest
      (r2.1, ev :: r2.2)
    if r.status == 200 then
      match r.result with
      | some res =>
        let cr := strTrim res
        if ¬ containsStr cr "NOT_FOUND" ∧ cr ≠ "" then (some loc, [ev])
        else miss
      | none => miss
    else miss

/-- Probe the glob patterns in order, parsing the listing for a usable
absolute path. `No such file` output is an expected miss, not an error. -/
def qkFindPatLoop (fn : String) (env : Nat → CmdResp) :
    Nat → List String → Option String × List Event
  | _, [] => (none, [])
  | i, pat :: rest =>
    let r := env i
    let ev := Event.bashLs pat
    let miss :=
      let r2 := qkFindPatLoop fn env (i + 1) rest
      (r2.1, ev :: r2.2)
    if r.status == 200 then
      match r.result with
      | some res =>
        let cr := strTrim res
        if cr ≠ "" ∧ ¬ containsStr cr "No such file" then
          match parseQkLsLines fn (strLines cr) with
          | some p => (some p, [ev])
          | none => miss
        else miss
      | none => miss
    else miss

/-- Oracle for the locator: one bash response per exact location and per
glob pattern. -/
structure QkFindEnv where
  loc : Nat → CmdResp
  pat : Nat → CmdResp

/-- `QKViewHandler._find_qkview_file` (lines 318-389). -/
def find_qkview_file (fn : String) (env : QkFindEnv) : Option String × List Event :=
  let a := qkFindLocLoop env.loc 0 (qkSearchLocations fn)
  match a.1 with
  | some p => (some p, a.2)
  | none =>
    let b := qkFindPatLoop fn env.pat 0 (qkSearchPatterns fn)
    (b.1, a.2 ++ b.2)

/-!
## QKView transport strategies 2 and 3
-/

/-- Oracle for the move-then-fetch strategy: unix-mv status, bash-mv
fallback status and `commandResult`, and the plain download behind it. -/
structure FtEnv where
  mvStatus : Nat
  bashMvStatus : Nat
  bashMvResult : Option String
  pd : PdEnv

/-- `QKViewHandler._download_via_file_transfer` (lines 595-668): move the
artifact into `/var/config/rest/downloads` (falling back to a bash `mv`),
fetch it through the file-transfer endpoint, then either move it back (on
failure, when a located source path is known) or remove the staged copy. -/
def download_via_file_transfer (fn : String) (actualPath : Option String)
    (env : FtEnv) : (Bool × Nat) × List Event :=
  let src := actualPath.getD ("/var/tmp/" ++ fn)
  let staging := "/var/config/rest/downloads/" ++ fn
  let tr0 := [Event.unixMv src staging]
  let moveFailed : Option ((Bool × Nat) × List Event) :=
    if env.mvStatus ≠ 200 then
      if env.bashMvStatus ≠ 200 then some ((false, 0), tr0 ++ [Event.bashMv src staging])
      else if env.bashMvResult.isSome ∧
          containsStr (env.bashMvResult.getD "") "No such file" then
        some ((false, 0), tr0 ++ [Event.bashMv src staging])
      else none
    else none
  match moveFailed with
  | some out => out
  | none =>
    let tr1 := if env.mvStatus ≠ 200 then tr0 ++ [Event.bashMv src staging] else tr0
    let pd := perform_download fn env.pd
    let trEnd :=
      if ¬ pd.1.1 ∧ actualPath.isSome then [Event.unixMv staging src]
      else [Event.bashRm staging]
    (pd.1, tr1 ++ pd.2 ++ trEnd)

/-- Oracle for the copy-then-fetch strategy. -/
structure BcEnv where
  verifyStatus : Nat
  verifyResult : Option String
  copyStatus : Nat
  copyResult : Option String
  pd : PdEnv

/-- `QKViewHandler._download_via_bash_copy` (lines 670-739): verify the
source exists, `cp` it into the staging directory, fetch it through the
file-transfer endpoint, and remove the staged copy regardless of outcome. -/
def download_via_bash_copy (fn : String) (actualPath : Option String)
    (env : BcEnv) : (Bool × Nat) × List Event :=
  let src := actualPath.getD ("/var/tmp/" ++ fn)
  let staging := "/var/config/rest/downloads/" ++ fn
  let tr0 := [Event.bashLs src]
  if env.verifyStatus == 200 ∧ env.verifyResult.isSome ∧
      containsStr (env.verifyResult.getD "") "No such file" then
    ((false, 0), tr0)
  else
    let tr1 := tr0 ++ [Event.bashCp src staging]
    if env.copyStatus ≠ 200 then ((false, 0), tr1)
    else if env.copyResult.isSome ∧
        containsStr (env.copyResult.getD "") "No such file" then
      ((false, 0), tr1)
    else
      let pd := perform_download fn env.pd
      (pd.1, tr1 ++ pd.2 ++ [Event.bashRm staging])

/-- `QKViewHandler._download_via_autodeploy_uri` (lines 391-418): only
applicable when the terminal payload carries a `qkviewUri`; rewrites the
URI to the device host and runs the chunked transfer against it. -/
def download_via_autodeploy_uri (baseUrl : String) (info : QkInfo)
    (env : QkChunkEnv) : (Bool × Nat) × List Event :=
  match info.qkviewUri with
  | none => ((false, 0), [])
  | some uri =>
    let _url := rewrite_download_url (hostOf baseUrl) uri
    download_chunked_f5_method env

/-- Oracle for a whole `_download_qkview` call: locator responses plus one
environment per transport strategy. -/
structure QkDlEnv where
  baseUrl : String
  find : QkFindEnv
  m1 : QkChunkEnv
  m2 : FtEnv
  m3 : BcEnv

/-- `QKViewHandler._download_qkview` (lines 264-316): locate the artifact,
then try the autodeploy-URI chunked transfer, the move-then-fetch strategy
and the copy-then-fetch strategy in order, stopping at the first success. -/
def download_qkview (info : QkInfo) (env : QkDlEnv) : (Bool × Nat) × List Event :=
  match info.name with
  | none => ((false, 0), [])
  | some fn =>
    let f := find_qkview_file fn env.find
    let m1 := download_via_autodeploy_uri env.baseUrl info env.m1
    if m1.1.1 then ((true, m1.1.2), f.2 ++ m1.2)
    else
      let m2 := download_via_file_transfer fn f.1 env.m2
      if m2.1.1 then ((true, m2.1.2), f.2 ++ m1.2 ++ m2.2)
      else
        let m3 := download_via_bash_copy fn f.1 env.m3
        if m3.1.1 then ((true, m3.1.2), f.2 ++ m1.2 ++ m2.2 ++ m3.2)
        else ((false, 0), f.2 ++ m1.2 ++ m2.2 ++ m3.2)

/-!
## QKView task creation (`QKViewHandler._create_qkview_task`, lines 94-184)
-/

/-- Oracle for the task-creation POST and its simplified-name retry. -/
structure QkCreateEnv where
  postExn : Bool
  postStatus : Nat
  postTaskId : Option String
  postText : String
  retryStatus : Nat
  retryTaskId : Option String

/-- `QKViewHandler._create_qkview_task`: POST the creation request and read
the task id from the JSON body; on a rejected name (response text mentions
`invalid` or `name`, case-insensitively) retry once with a simplified
filename. Returns the task id, or `none` on failure. -/
def create_qkview_task (env : QkCreateEnv) : Option String × List Event :=
  if env.postExn then (none, [Event.createTaskPost])
  else if env.postStatus == 200 ∨ env.postStatus == 202 then
    (env.postTaskId, [Event.createTaskPost])
  else if containsStr (strLower env.postText) "invalid" ∨
      containsStr (strLower env.postText) "name" then
    if env.retryStatus == 200 ∨ env.retryStatus == 202 then
      (env.retryTaskId, [Event.createTaskPost, Event.createTaskPost])
    else (none, [Event.createTaskPost, Event.createTaskPost])
  else (none, [Event.createTaskPost])

/-!
## QKView status polling
(`QKViewHandler._wait_for_qkview_completion`, lines 186-262)
-/

/-- Response to one status GET of the qkview poll: a parsed 200 JSON, or a
`requests` transport exception (which is what both a connection failure and
a `raise_for_status` error raise). -/
inductive QkPollResp
  | ok (info : QkInfo)
  | exn
deriving DecidableEq

/-- Result of a polling loop: `term` when the loop returned from inside an
iteration, `timeout` when the while-guard expired, `fuelOut` when the fuel
ran out (shown unreachable for the fuel the wrappers pass). -/
inductive LoopRes (α : Type)
  | term (r : Option α) (tr : List Event)
  | timeout (tr : List Event)
  | fuelOut (tr : List Event)
deriving DecidableEq

/-- Prepend events to the trace of a polling-loop outcome. -/
def LoopRes.addTr {α : Type} (es : List Event) : LoopRes α → LoopRes α
  | .term r tr => .term r (es ++ tr)
  | .timeout tr => .timeout (es ++ tr)
  | .fuelOut tr => .fuelOut (es ++ tr)

/-- The qkview polling while-loop. `t` is the elapsed time in seconds
(advancing 15s per non-terminal iteration), `cc` the number of status
checks already made (the source's `check_count` before the iteration's
increment). A transport exception aborts when the incremented total check
count reaches 3 — note the source compares the TOTAL check count, not a
consecutive-failure count. -/
def qkPollLoop (resps : Nat → QkPollResp) (timeout : Nat) :
    Nat → Nat → Nat → LoopRes QkInfo
  | 0, _, _ => .fuelOut []
  | fuel + 1, t, cc =>
    if t < timeout then
      match resps cc with
      | .ok info =>
        if info.status == "SUCCEEDED" then .term (some info) [Event.statusGet]
        else if info.status == "FAILED" then .term none [Event.statusGet]
        else (qkPollLoop resps timeout fuel (t + 15) (cc + 1)).addTr [Event.statusGet]
      | .exn =>
        if cc + 1 ≥ 3 then .term none [Event.statusGet]
        else (qkPollLoop resps timeout fuel (t + 15) (cc + 1)).addTr [Event.statusGet]
    else .timeout []

/-- `QKViewHandler._wait_for_qkview_completion`: run the polling loop from
time 0; when the deadline elapses the source prints a TIMEOUT line and
returns `None` WITHOUT any further status check. -/
def wait_for_qkview_completion (timeout : Nat) (resps : Nat → QkPollResp) :
    Option QkInfo × List Event :=
  match qkPollLoop resps timeout (timeout + 1) 0 0 with
  | .term r tr => (r, tr)
  | .timeout tr => (none, tr)
  | .fuelOut tr => (none, tr)

/-!
## QKView cleanup and top-level composition
(`QKViewHandler.create_and_download_qkview`, lines 38-92, and the cleanup
helpers at lines 831-861)
-/

/-- `QKViewHandler._cleanup_qkview_file`: POST to the unix-rm endpoint for
`/var/tmp/<filename>` (failures are caught and logged). -/
def cleanup_qkview_file (fn : String) : List Event :=
  [Event.unixRm ("/var/tmp/" ++ fn)]

/-- `QKViewHandler._cleanup_qkview_task`: DELETE the autodeploy task record
(failures are caught and logged). -/
def cleanup_qkview_task : List Event :=
  [Event.taskDelete]

/-- The body of `QKViewHandler.create_and_download_qkview` with its
collaborator calls abstracted as parameters (the task id returned by step
1, the terminal payload returned by step 2 and the `(success, size)` pair
returned by step 3); the returned trace holds only the events THIS method
body emits, namely the step-4 cleanup calls, which run only when the
download succeeded, a filename is known, the downloaded size exceeds
5MB and the no-delete flag is clear. -/
def create_and_download_qkview_steps (noDelete : Bool) (createRes : Option String)
    (pollRes : Option QkInfo) (dl : Bool × Nat) : Bool × List Event :=
  match createRes with
  | none => (false, [])
  | some _tid =>
    match pollRes with
    | none => (false, [])
    | some info =>
      if dl.1 then
        match info.name with
        | some fn =>
          if dl.2 > 5 * 1024 * 1024 then
            if noDelete then (true, [])
            else (true, cleanup_qkview_file fn ++ cleanup_qkview_task)
          else (true, [])
        | none => (true, [])
      else (false, [])

/-- Oracle for a whole qkview run. -/
structure QkRunEnv where
  create : QkCreateEnv
  timeout : Nat
  poll : Nat → QkPollResp
  dl : QkDlEnv

/-- `QKViewHandler.create_and_download_qkview`: create the task, poll it to
a terminal payload, download the artifact, then apply the step-4 cleanup
gating; the run trace is the concatenation of all collaborator traces. -/
def create_and_download_qkview (noDelete : Bool) (env : QkRunEnv) : Bool × List Event :=
  let c := create_qkview_task env.create
  match c.1 with
  | none => (false, c.2)
  | some tid =>
    let w := wait_for_qkview_completion env.timeout env.poll
    match w.1 with
    | none => (false, c.2 ++ w.2)
    | some info =>
      let d := download_qkview info env.dl
      let st := create_and_download_qkview_steps noDelete (some tid) (some info) d.1
      (st.1, c.2 ++ w.2 ++ d.2 ++ st.2)

/-!
## UCS task creation and validation
(`UCSHandler._create_ucs_task` lines 105-213, `_validate_ucs_task` 215-262)
-/

/-- The task JSON fields the UCS handler reads: `_taskState`, `_taskId` and
(for the fabricated payloads) the artifact `name`. -/
structure UcsInfo where
  taskState : String
  taskId : Option String
  name : Option String
deriving DecidableEq

/-- Oracle for the UCS creation POST, the validate PUT, and the
simplified-name retry. -/
structure UcsCreateEnv where
  postExn : Bool
  postStatus : Nat
  postTaskId : Option String
  postText : String
  validateExn : Bool
  validateStatus : Nat
  retryStatus : Nat
  retryTaskId : Option String
  retryValidateExn : Bool
  retryValidateStatus : Nat

/-- `UCSHandler._validate_ucs_task`: PUT `_taskState: VALIDATING`; any 202
response counts as success (even with an unparsable body); anything else,
or an exception, is failure. -/
def validate_ucs_task (exn : Bool) (status : Nat) : Bool × List Event :=
  if exn then (false, [Event.validatePut])
  else (status == 202, [Event.validatePut])

/-- `UCSHandler._create_ucs_task`: POST the save task, read `_taskId`, then
validate the task (the critical follow-up PUT); without a 202 from the
validate, the whole creation fails. On a rejected name, retry once with a
simplified name, which must also be validated. Returns
`(task_id, ucs_filename)` like the source. -/
def create_ucs_task (ucsFilename simpleFilename : String) (env : UcsCreateEnv) :
    Option (String × String) × List Event :=
  if env.postExn then (none, [Event.createTaskPost])
  else if env.postStatus == 200 ∨ env.postStatus == 202 then
    match env.postTaskId with
    | some tid =>
      let v := validate_ucs_task env.validateExn env.validateStatus
      if v.1 then (some (tid, ucsFilename), Event.createTaskPost :: v.2)
      else (none, Event.createTaskPost :: v.2)
    | none => (none, [Event.createTaskPost])
  else if containsStr (strLower env.postText) "invalid" ∨
      containsStr (strLower env.postText) "name" then
    if env.retryStatus == 200 ∨ env.retryStatus == 202 then
      match env.retryTaskId with
      | some tid =>
        let v := validate_ucs_task env.retryValidateExn env.retryValidateStatus
        if v.1 then (some (tid, simpleFilename),
          Event.createTaskPost :: Event.createTaskPost :: v.2)
        else (none, Event.createTaskPost :: Event.createTaskPost :: v.2)
      | none => (none, [Event.createTaskPost, Event.createTaskPost])
    else (none, [Event.createTaskPost, Event.createTaskPost])
  else (none, [Event.createTaskPost])

/-!
## UCS polling helpers
(`UCSHandler._check_ucs_file_exists` lines 410-437,
`_wait_for_file_completion` lines 467-513)
-/

/-- `UCSHandler._check_ucs_file_exists`: stat the most recent UCS file via
bash; a 200 whose output mentions `ucs` and has two fields yields
`(exists, size)`; a size field that is not an integer raises inside the
helper, which the source converts to a `None` return (modelled as `none`,
which makes the caller's tuple-unpacking raise). -/
def check_ucs_file_exists (r : CmdResp) : Option (Bool × Nat) × List Event :=
  let tr := [Event.bashLs "/var/local/ucs/*.ucs"]
  if r.status == 200 then
    match r.result with
    | some res =>
      let out := strTrim res
      if out ≠ "" ∧ containsStr out "ucs" then
        match splitWs out with
        | _f :: szs :: _ =>
          match strToNat szs with
          | some n => (some (true, n), tr)
          | none => (none, tr)
        | _ => (some (false, 0), tr)
      else (some (false, 0), tr)
    | none => (some (false, 0), tr)
  else (some (false, 0), tr)

/-- The bounded monitor loop of `_wait_for_file_completion`: up to 10 stat
probes of the most recent UCS file; returns true once the size has been
stable for 3 consecutive checks, and otherwise reports whether the last
seen size exceeded 10MB. -/
def fileWaitLoop (env : Nat → CmdResp) : Nat → Nat → Nat → Nat → Bool × List Event
  | 0, _, last, _ => (last > 10 * 1024 * 1024, [])
  | n + 1, i, last, stable =>
    let r := env i
    let ev := Event.bashLs "/var/local/ucs/*.ucs"
    let step : Option (Nat × Nat) :=
      if r.status == 200 then
        match r.result with
        | some res =>
          match strToNat (strTrim res) with
          | some cur =>
            if cur > 0 then
              if cur == last then some (cur, stable + 1)
              else some (cur, 0)
            else none
          | none => none
        | none => none
      else none
    match step with
    | some (cur, stable2) =>
      if stable2 ≥ 3 then (true, [ev])
      else
        let r2 := fileWaitLoop env n (i + 1) cur stable2
        (r2.1, ev :: r2.2)
    | none =>
      let r2 := fileWaitLoop env n (i + 1) last stable
      (r2.1, ev :: r2.2)

/-- `UCSHandler._wait_for_file_completion` with its per-check responses. -/
def wait_for_file_completion (env : Nat → CmdResp) : Bool × List Event :=
  fileWaitLoop env 10 0 0 0

/-!
## UCS status polling (`UCSHandler._wait_for_ucs_completion`, lines 264-408)
-/

/-- Response to one status GET of the UCS poll. -/
inductive UcsPollResp
  | ok (info : UcsInfo)
  | exn
deriving DecidableEq

/-- Response to the one last direct status check made after the deadline. -/
inductive UcsFinalResp
  | resp (status : Nat) (info : UcsInfo)
  | exn
deriving DecidableEq

/-- Oracle for a UCS polling run: the per-check status responses, the bash
responses consumed by `_check_ucs_file_exists` and
`_wait_for_file_completion` when a failure burst triggers them (indexed by
the check number at which the burst ends), and the post-deadline final
status check. -/
structure UcsPollEnv where
  resp : Nat → UcsPollResp
  fileCheck : Nat → CmdResp
  fileWait : Nat → Nat → CmdResp
  finalCheck : UcsFinalResp

/-- The UCS polling while-loop. Unlike the qkview loop it counts
CONSECUTIVE transport failures (`cf`), resetting the counter on every
successful check; after 10 consecutive failures it looks for the UCS file
on disk, fabricates a COMPLETED result if the file stops growing, and
otherwise either keeps waiting with the counter rewound to 5 (when less
than half the deadline is spent) or aborts. `lk` is `last_known_status`. -/
def ucsPollLoop (env : UcsPollEnv) (tid : String) (timeout : Nat) :
    Nat → Nat → Nat → Nat → Option String → LoopRes UcsInfo
  | 0, _, _, _, _ => .fuelOut []
  | fuel + 1, t, cc, cf, lk =>
    if t < timeout then
      match env.resp cc with
      | .ok info =>
        if info.taskState == "COMPLETED" then .term (some info) [Event.statusGet]
        else if info.taskState == "FAILED" then .term none [Event.statusGet]
        else
          (ucsPollLoop env tid timeout fuel (t + 15) (cc + 1) 0
            (some info.taskState)).addTr [Event.statusGet]
      | .exn =>
        if cf + 1 ≥ 10 then
          match check_ucs_file_exists (env.fileCheck cc) with
          | (none, trC) => .term none (Event.statusGet :: trC)
          | (some (ex, _sz), trC) =>
            if ex then
              let w := wait_for_file_completion (env.fileWait cc)
              if w.1 then
                .term (some ⟨"COMPLETED", some tid, none⟩)
                  (Event.statusGet :: trC ++ w.2)
              else if 2 * t < timeout then
                (ucsPollLoop env tid timeout fuel (t + 15) (cc + 1) 5 lk).addTr
                  (Event.statusGet :: trC ++ w.2)
              else .term none (Event.statusGet :: trC ++ w.2)
            else
              if 2 * t < timeout then
                (ucsPollLoop env tid timeout fuel (t + 15) (cc + 1) 5 lk).addTr
                  (Event.statusGet :: trC)
              else .term none (Event.statusGet :: trC)
        else
          (ucsPollLoop env tid timeout fuel (t + 15) (cc + 1) (cf + 1) lk).addTr
            [Event.statusGet]
    else .timeout []

/-- `UCSHandler._wait_for_ucs_completion`: run the polling loop from time
0; when the deadline elapses, make ONE final direct status check and return
its payload if (and only if) it comes back 200 with `_taskState` equal to
COMPLETED; otherwise return `None`. -/
def wait_for_ucs_completion (tid : String) (timeout : Nat) (env : UcsPollEnv) :
    Option UcsInfo × List Event :=
  match ucsPollLoop env tid timeout (timeout + 1) 0 0 0 none with
  | .term r tr => (r, tr)
  | .timeout tr =>
    match env.finalCheck with
    | .resp s info =>
      (if s == 200 ∧ info.taskState == "COMPLETED" then some info else none,
        tr ++ [Event.statusGet])
    | .exn => (none, tr ++ [Event.statusGet])
  | .fuelOut tr => (none, tr)

/-!
## UCS file locator (`UCSHandler._find_ucs_file`, lines 591-657)
-/

/-- Scan the `ls -lat` listing of recent UCS files for one whose final
field ends in `.ucs` and contains the expected filename (extension
stripped). -/
def parseUcsLsLines (fn : String) : List String → Option String
  | [] => none
  | line :: rest =>
    if containsStr line ".ucs" then
      let parts := splitWs line
      if parts.length ≥ 9 then
        let found := (parts.getLast?).getD ""
        if strEnds found ".ucs" then
          if containsStr found (strReplace fn ".ucs" "") then
            some ("/var/local/ucs/" ++ found)
          else parseUcsLsLines fn rest
        else parseUcsLsLines fn rest
      else parseUcsLsLines fn rest
    else parseUcsLsLines fn rest

/-- Fallback of the locator: when no name-based match exists, take the most
recently modified file, i.e. the last field of the first listing line. -/
def parseUcsMostRecent (lines : List String) : Option String :=
  match lines with
  | [] => none
  | line0 :: _ =>
    if containsStr line0 ".ucs" then
      let parts := splitWs line0
      if parts.length ≥ 9 then some ("/var/local/ucs/" ++ (parts.getLast?).getD "")
      else none
    else none

/-- Oracle for the UCS locator: the exact-location probe and the
recent-files listing. -/
structure UcsFindEnv where
  exact : CmdResp
  recent : CmdResp

/-- `UCSHandler._find_ucs_file`: probe `/var/local/ucs/<filename>` exactly;
if that misses, list the five most recent `.ucs` files, prefer a name-based
match, and fall back to the most recent file. -/
def find_ucs_file (fn : String) (env : UcsFindEnv) : Option String × List Event :=
  let exactLoc := "/var/local/ucs/" ++ fn
  let tr0 := [Event.bashLs exactLoc]
  let hit : Bool :=
    if env.exact.status == 200 then
      match env.exact.result with
      | some res =>
        let cr := strTrim res
        ¬ containsStr cr "NOT_FOUND" && cr ≠ ""
      | none => false
    else false
  if hit then (some exactLoc, tr0)
  else
    let tr1 := tr0 ++ [Event.bashLs "/var/local/ucs/*.ucs"]
    if env.recent.status == 200 then
      match env.recent.result with
      | some res =>
        let cr := strTrim res
        if cr ≠ "" ∧ ¬ containsStr cr "No such file" then
          let lines := strLines cr
          match parseUcsLsLines fn lines with
          | some p => (some p, tr1)
          | none => (parseUcsMostRecent lines, tr1)
        else (none, tr1)
      | none => (none, tr1)
    else (none, tr1)

/-!
## UCS chunked download via bash dd/base64
(`UCSHandler._download_chunked_f5_method`, lines 659-820)
-/

/-- Response to one `dd | base64` chunk read: `ok none` is a 200 whose
payload fails to base64-decode, `ok (some data)` carries the decoded bytes
(an empty list models an empty `commandResult`, the end-of-file signal);
the other constructors are the HTTP-error and exception branches. -/
inductive UcsChunkResp
  | ok (data : Option (List Nat))
  | httpErr (code : Nat)
  | exn
deriving DecidableEq

/-- State of the dd-read loop: next offset, bytes downloaded so far, and
the local file content. -/
structure UcsChunkSt where
  start : Nat
  current : Nat
  written : List Nat
deriving DecidableEq

/-- 1MB, the chunk size hard-coded in the UCS handler. -/
def ucsChunkSize : Nat := 1024 * 1024

/-- Outcome of the dd-read loop. -/
inductive UcsChunkOut
  | done (st : UcsChunkSt) (tr : List Event)
  | failed (st : UcsChunkSt) (tr : List Event)
  | fuelOut (st : UcsChunkSt) (tr : List Event)
deriving DecidableEq

/-- Prepend an event to the trace of a dd-loop outcome. -/
def UcsChunkOut.consTr (e : Event) : UcsChunkOut → UcsChunkOut
  | .done st tr => .done st (e :: tr)
  | .failed st tr => .failed st (e :: tr)
  | .fuelOut st tr => .fuelOut st (e :: tr)

/-- The dd-read while loop: stop when the known total is reached, when a
chunk comes back empty, or when a chunk is shorter than requested;
otherwise append the decoded bytes and advance the offset by the amount
actually received. -/
def ucsChunkLoop (total : Nat) (env : Nat → UcsChunkResp) :
    Nat → Nat → UcsChunkSt → UcsChunkOut
  | 0, _, st => .fuelOut st []
  | fuel + 1, i, st =>
    if total > 0 ∧ st.start ≥ total then .done st []
    else
      let bytesToRead := if total > 0 then min ucsChunkSize (total - st.start) else ucsChunkSize
      let ev := Event.bashDd st.start bytesToRead
      match env i with
      | .httpErr _ => .failed st [ev]
      | .exn => .failed st [ev]
      | .ok none => .failed st [ev]
      | .ok (some data) =>
        if data.isEmpty then .done st [ev]
        else
          let st2 := { st with current := st.current + data.length,
                               written := st.written ++ data }
          if data.length < bytesToRead then .done st2 [ev]
          else
            (ucsChunkLoop total env fuel (i + 1)
              { st2 with start := st.start + data.length }).consTr ev

/-- Parse the `stat -c%s` size probe of the UCS chunked download; any
failure leaves the total at 0 as in the source. -/
def parseStatSize (r : CmdResp) : Nat :=
  if r.status == 200 then
    match r.result with
    | some s => ((strToNat (strTrim s)).getD 0)
    | none => 0
  else 0

/-- Small-file sniff of the UCS chunked download, identical in shape to the
qkview one but with a 1MB suspicion threshold. -/
def ucsSniff (content : List Nat) : Bool × Nat :=
  if content.length < 1024 * 1024 then
    if hasMarkers (content.take 100) then (false, content.length)
    else (true, content.length)
  else (true, content.length)

/-- Post-loop verification of the UCS chunked download (ucs_handler.py
lines 777-814): exact match, ≤1KB difference, or at least 95 percent of
the expected size; then the small-file sniff. -/
def ucsChunkFinish (total : Nat) (content : List Nat) : Bool × Nat :=
  let final := content.length
  if total > 0 then
    let diff := natDiff final total
    if diff == 0 then ucsSniff content
    else if diff ≤ 1024 then ucsSniff content
    else if 19 * total ≤ 20 * final then ucsSniff content
    else (false, final)
  else ucsSniff content

/-- Oracle for one UCS chunked download: the size probe, the loop fuel and
the per-chunk responses. -/
structure UcsChunkEnv where
  sizeResp : CmdResp
  fuel : Nat
  chunk : Nat → UcsChunkResp

/-- `UCSHandler._download_chunked_f5_method`: stat the remote size, run the
dd-read loop, then verify the final size and sniff small files. -/
def ucs_download_chunked (filePath : String) (env : UcsChunkEnv) :
    (Bool × Nat) × List Event :=
  let total := parseStatSize env.sizeResp
  let tr0 := [Event.bashStat filePath]
  match ucsChunkLoop total env.chunk env.fuel 0 ⟨0, 0, []⟩ with
  | .done st tr => (ucsChunkFinish total st.written, tr0 ++ tr)
  | .failed _ tr => ((false, 0), tr0 ++ tr)
  | .fuelOut _ tr => ((false, 0), tr0 ++ tr)

/-!
## UCS download entry point (`UCSHandler._download_ucs`, lines 515-589)
-/

/-- The prompt text of the small-file confirmation. -/
def ucsPromptMsg : String := "    Continue with download? (y/n): "

/-- Parse the `stat -c "%s %Y"` probe of `_download_ucs`: a 200 with a
nonempty `commandResult` whose first whitespace field is an integer. -/
def statParsedSize (r : CmdResp) : Option Nat :=
  if r.status == 200 then
    match r.result with
    | some out =>
      let o := strTrim out
      if o ≠ "" then
        match splitWs o with
        | [] => none
        | x :: _ => strToNat x
      else none
    | none => none
  else none

/-- Oracle for a `_download_ucs` call: locator responses, the size/readable
probes, the operator's answer to the small-file prompt, and the chunked
download behind it. -/
structure UcsDlEnv where
  find : UcsFindEnv
  stat : CmdResp
  promptAnswer : String
  readable : CmdResp
  chunk : UcsChunkEnv

/-- `UCSHandler._download_ucs`: locate the artifact, stat it (and, for a
remote size under 1MB, block on an interactive confirmation that must
answer `y` case-insensitively or the download is abandoned), verify it is
readable, then run the chunked dd/base64 download. On a failed chunked
download the size it reported is still returned. -/
def download_ucs (fn : String) (env : UcsDlEnv) : (Bool × Nat) × List Event :=
  let f := find_ucs_file fn env.find
  match f.1 with
  | none => ((false, 0), f.2)
  | some p =>
    let trS := f.2 ++ [Event.bashStat p]
    let abandoned : Bool :=
      match statParsedSize env.stat with
      | some s => s < 1024 * 1024 ∧ (strLower env.promptAnswer) ≠ "y"
      | none => false
    let prompted : Bool :=
      match statParsedSize env.stat with
      | some s => s < 1024 * 1024
      | none => false
    let trP := if prompted then trS ++ [Event.prompt ucsPromptMsg] else trS
    if abandoned then ((false, 0), trP)
    else
      let trR := trP ++ [Event.bashCheck p]
      let notReadable : Bool :=
        if env.readable.status == 200 then
          match env.readable.result with
          | some r => containsStr r "NOT_READABLE"
          | none => false
        else false
      if notReadable then ((false, 0), trR)
      else
        let c := ucs_download_chunked p env.chunk
        (c.1, trR ++ c.2)

/-!
## UCS existence check, cleanup and top-level composition
(`UCSHandler._check_if_ucs_exists_by_name` lines 439-465,
`_cleanup_ucs_file` lines 836-922, `_cleanup_ucs_task` lines 822-834,
`create_and_download_ucs` lines 39-103)
-/

/-- `UCSHandler._check_if_ucs_exists_by_name`: a bash conditional that
prints the file size (or `0`); exists iff the printed size parses and is
positive. -/
def check_if_ucs_exists_by_name (fn : String) (r : CmdResp) :
    (Bool × Nat) × List Event :=
  let path := "/var/local/ucs/" ++ fn
  let tr := [Event.bashCheck path]
  if r.status == 200 then
    match r.result with
    | some res =>
      match strToNat (strTrim res) with
      | some n => if n > 0 then ((true, n), tr) else ((false, 0), tr)
      | none => ((false, 0), tr)
    | none => ((false, 0), tr)
  else ((false, 0), tr)

/-- Oracle for the UCS file cleanup: responses to the existence check, the
`rm -f`, the verify-after-delete, the forced retry and its final verify. -/
structure UcsCleanupEnv where
  check : CmdResp
  rm : CmdResp
  verify : CmdResp
  force : CmdResp
  finalVerify : CmdResp

/-- `UCSHandler._cleanup_ucs_file`: verify the file exists, `rm -f` it,
re-check, and on a file that survives run one forced `rm -rf ...; sync`
retry with a final verification; every failure is only logged. The
function returns nothing, so the model returns only its event trace. -/
def cleanup_ucs_file (fn : String) (env : UcsCleanupEnv) : List Event :=
  let path := "/var/local/ucs/" ++ fn
  let tr0 := [Event.bashLs path]
  if env.check.status == 200 ∧ containsStr ((env.check.result).getD "") "No such file" then
    tr0
  else
    let tr1 := tr0 ++ [Event.bashRm path]
    if env.rm.status == 200 then
      let cr := strTrim ((env.rm.result).getD "")
      if cr ≠ "" ∧ containsStr (strLower cr) "cannot remove" then tr1
      else
        let tr2 := tr1 ++ [Event.bashCheck path]
        if env.verify.status == 200 then
          let vo := strTrim ((env.verify.result).getD "")
          if vo == "DELETED" then tr2
          else if vo == "STILL_EXISTS" then
            let tr3 := tr2 ++ [Event.bashRmForce path]
            if env.force.status == 200 then tr3 ++ [Event.bashCheck path]
            else tr3
          else tr2
        else tr2
    else tr1

/-- `UCSHandler._cleanup_ucs_task`: DELETE the task record (failures are
caught and logged). -/
def cleanup_ucs_task : List Event :=
  [Event.taskDelete]

/-- Steps 3 and 4 of `UCSHandler.create_and_download_ucs` (lines 70-98),
run once a terminal payload `_info` is in hand (the payload itself is not
consulted again — the filename from task creation drives the download):
report the download outcome and, when it succeeded with more than 1MB
verified and the no-delete flag is clear, clean up the remote file and the
task record. -/
def create_and_download_ucs_afterPoll (_info : UcsInfo) (noDelete : Bool)
    (fn : String) (dl : Bool × Nat) (clEnv : UcsCleanupEnv) : Bool × List Event :=
  if dl.1 then
    if dl.2 > 1024 * 1024 then
      if noDelete then (true, [])
      else (true, cleanup_ucs_file fn clEnv ++ cleanup_ucs_task)
    else (true, [])
  else (false, [])

/-- The body of `UCSHandler.create_and_download_ucs` with its collaborator
calls abstracted as parameters. When polling returns `None`, the handler
does NOT give up: it asks the device whether the expected UCS file exists
anyway, and a file larger than 10MB makes it fabricate a COMPLETED task
payload and proceed to download and cleanup as if polling had succeeded. -/
def create_and_download_ucs_steps (noDelete : Bool)
    (createRes : Option (String × String)) (pollRes : Option UcsInfo)
    (checkEnv : CmdResp) (dl : Bool × Nat) (clEnv : UcsCleanupEnv) :
    Bool × List Event :=
  match createRes with
  | none => (false, [])
  | some (tid, fn) =>
    match pollRes with
    | some info => create_and_download_ucs_afterPoll info noDelete fn dl clEnv
    | none =>
      let c := check_if_ucs_exists_by_name fn checkEnv
      if c.1.1 ∧ c.1.2 > 10 * 1024 * 1024 then
        let ap :=
          create_and_download_ucs_afterPoll ⟨"COMPLETED", some tid, some fn⟩
            noDelete fn dl clEnv
        (ap.1, c.2 ++ ap.2)
      else (false, c.2)

/-- Oracle for a whole UCS run. -/
structure UcsRunEnv where
  create : UcsCreateEnv
  ucsFilename : String
  simpleFilename : String
  timeout : Nat
  poll : UcsPollEnv
  checkByName : CmdResp
  dl : UcsDlEnv
  cleanup : UcsCleanupEnv

/-- `UCSHandler.create_and_download_ucs`: create and validate the task,
poll it (falling back to the on-disk existence check when polling yields
nothing), download the artifact and apply the cleanup gating; the run
trace is the concatenation of all collaborator traces. -/
def create_and_download_ucs (noDelete : Bool) (env : UcsRunEnv) : Bool × List Event :=
  let c := create_ucs_task env.ucsFilename env.simpleFilename env.create
  match c.1 with
  | none => (false, c.2)
  | some (tid, fn) =>
    let w := wait_for_ucs_completion tid env.timeout env.poll
    match w.1 with
    | some info =>
      let d := download_ucs fn env.dl
      let ap := create_and_download_ucs_afterPoll info noDelete fn d.1 env.cleanup
      (ap.1, c.2 ++ w.2 ++ d.2 ++ ap.2)
    | none =>
      let ck := check_if_ucs_exists_by_name fn env.checkByName
      if ck.1.1 ∧ ck.1.2 > 10 * 1024 * 1024 then
        let d := download_ucs fn env.dl
        let ap :=
          create_and_download_ucs_afterPoll ⟨"COMPLETED", some tid, some fn⟩
            noDelete fn d.1 env.cleanup
        (ap.1, c.2 ++ w.2 ++ ck.2 ++ d.2 ++ ap.2)
      else (false, c.2 ++ w.2 ++ ck.2)

/-!
# Claims

The remainder of the file settles the claims of the specification against
the embedding above.
-/

/-- Claim C1: for every run and both artifact kinds, the step-4 remote
cleanup (DELETE of the task record, removal of the remote artifact file)
is invoked only when the locally verified downloaded byte count strictly
exceeds the kind-specific safety threshold — 5MB for QKView snapshots and
1MB for UCS backups; at or below the threshold no cleanup call is made,
even when the download itself reported success. Stated over the top-level
method bodies with their collaborator results as parameters: any event the
qkview body emits, and any destructive event the ucs body emits, forces
the downloaded size above the respective threshold. -/
theorem cleanup_size_gating :
    (∀ (noDelete : Bool) (createRes : Option String) (pollRes : Option QkInfo)
      (dl : Bool × Nat) (e : Event),
      e ∈ (create_and_download_qkview_steps noDelete createRes pollRes dl).2 →
      5 * 1024 * 1024 < dl.2) ∧
    (∀ (noDelete : Bool) (createRes : Option (String × String))
      (pollRes : Option UcsInfo) (checkEnv : CmdResp) (dl : Bool × Nat)
      (clEnv : UcsCleanupEnv) (e : Event),
      destructive e = true →
      e ∈ (create_and_download_ucs_steps noDelete createRes pollRes checkEnv dl clEnv).2 →
      1024 * 1024 < dl.2) := by
  constructor
  · intro nd cr pr dl e he
    rcases cr with _ | tid
    · simp [create_and_download_qkview_steps] at he
    rcases pr with _ | info
    · simp [create_and_download_qkview_steps] at he
    simp only [create_and_download_qkview_steps] at he
    split at he
    · split at he
      · split at he
        · rename_i hsz
          exact hsz
        · simp at he
      · simp at he
    · simp at he
  · intro nd cr pr ce dl cl e hde he
    have hafter : ∀ info fn,
        e ∈ (create_and_download_ucs_afterPoll info nd fn dl cl).2 →
        1024 * 1024 < dl.2 := by
      intro info fn h
      simp only [create_and_download_ucs_afterPoll] at h
      split at h
      · split at h
        · rename_i hsz
          exact hsz
        · simp at h
      · simp at h
    have hcheckTr : ∀ fn,
        (check_if_ucs_exists_by_name fn ce).2 =
          [Event.bashCheck ("/var/local/ucs/" ++ fn)] := by
      intro fn
      unfold check_if_ucs_exists_by_name
      split <;> (try split) <;> (try split) <;> (try split) <;> rfl
    rcases cr with _ | ⟨tid, fn⟩
    · simp [create_and_download_ucs_steps] at he
    rcases pr with _ | info
    · simp only [create_and_download_ucs_steps] at he
      split at he
      · simp only [List.mem_append] at he
        rcases he with he | he
        · rw [hcheckTr fn] at he
          simp at he
          rw [he] at hde
          simp [destructive] at hde
        · exact hafter _ _ he
      · simp only at he
        rw [hcheckTr fn] at he
        simp at he
        rw [he] at hde
        simp [destructive] at hde
    · simp only [create_and_download_ucs_steps] at he
      exact hafter _ _ he

/-- Witness for C1: a qkview run that downloaded 6MB does clean up (the
task DELETE is emitted), and 6MB clears the 5MB threshold. -/
theorem cleanup_size_gating_witness :
    5 * 1024 * 1024 < (6291456 : Nat) :=
  cleanup_size_gating.1 false (some "t1") (some ⟨"SUCCEEDED", some "f.qkview", none⟩)
    (true, 6291456) Event.taskDelete (by decide)

/-- A qkview polling trace whose only transport exception is immediately
preceded by two successful in-progress status checks — an isolated blip. -/
def qkBlipResps : Nat → QkPollResp := fun i =>
  if i < 2 then .ok ⟨"IN_PROGRESS", none, none⟩ else .exn

/-- Claim C3 (code bug evidence): on the snapshot kind the poller does NOT
count consecutive transport failures — it compares the TOTAL number of
status checks against 3 (`check_count >= 3`, qkview_handler.py line 248)
while printing a message about consecutive failures. Feeding two
successful IN_PROGRESS checks followed by a single transport exception
(with the default 1200s deadline nowhere near expiry) makes the poller
abort immediately: it returns the failure result `none` after exactly the
three status checks, although only ONE consecutive failure occurred. -/
theorem qkview_poll_isolated_blip_abort :
    wait_for_qkview_completion 1200 qkBlipResps =
      (none, [Event.statusGet, Event.statusGet, Event.statusGet]) := by
  decide

/-- A qkview polling trace that stays IN_PROGRESS until the deadline and
would report SUCCEEDED on the very next check after it. -/
def qkLateResps : Nat → QkPollResp := fun i =>
  if i < 2 then .ok ⟨"IN_PROGRESS", none, none⟩
  else .ok ⟨"SUCCEEDED", some "x.qkview", none⟩

/-- Counterexample to claim C4: with a 30-second deadline the snapshot
poller makes its two in-deadline checks (at 0s and 15s), then the deadline
elapses; although the very next status check would have returned a
SUCCEEDED payload (`qkLateResps 2`), the qkview poller performs NO
post-deadline check at all: it returns `none` with exactly the two
in-deadline status GETs in its trace, contradicting the claim that both
artifact kinds perform exactly one additional direct status check after
the deadline and return the terminal payload it reports. -/
theorem qkview_timeout_no_final_check_counterexample :
    wait_for_qkview_completion 30 qkLateResps =
      (none, [Event.statusGet, Event.statusGet]) ∧
    qkLateResps 2 = .ok ⟨"SUCCEEDED", some "x.qkview", none⟩ := by
  constructor
  · decide
  · decide

/-- Claim C4 (amended): only the backup (UCS) kind performs the one extra
post-deadline status check. Whenever the UCS polling loop runs the
deadline out without a terminal state (outcome `.timeout`), the poller
issues exactly one additional status GET and returns the terminal payload
precisely when that check comes back 200 with state COMPLETED; the
snapshot (qkview) poller, by contrast, returns `none` on the timeout path
with no additional check. -/
theorem final_status_check_amended :
    (∀ (env : UcsPollEnv) (tid : String) (timeout : Nat) (tr : List Event),
      ucsPollLoop env tid timeout (timeout + 1) 0 0 0 none = .timeout tr →
      wait_for_ucs_completion tid timeout env =
        ((match env.finalCheck with
          | .resp s info =>
            if s == 200 ∧ info.taskState == "COMPLETED" then some info else none
          | .exn => none), tr ++ [Event.statusGet])) ∧
    (∀ (resps : Nat → QkPollResp) (timeout : Nat) (tr : List Event),
      qkPollLoop resps timeout (timeout + 1) 0 0 = .timeout tr →
      wait_for_qkview_completion timeout resps = (none, tr)) := by
  constructor
  · intro env tid timeout tr h
    unfold wait_for_ucs_completion
    rw [h]
    rcases env.finalCheck with ⟨s, info⟩ | _ <;> simp
  · intro resps timeout tr h
    unfold wait_for_qkview_completion
    rw [h]

/-- Witness for the amended C4: with a 0-second deadline the UCS loop
times out at once with an empty in-loop trace, and a final check that
reports 200/COMPLETED makes the poller return that payload after exactly
one status GET; the qkview poller under the same conditions returns `none`
with no check at all. -/
theorem final_status_check_amended_witness :
    wait_for_ucs_completion "t1" 0
        { resp := fun _ => .exn, fileCheck := fun _ => ⟨0, none⟩,
          fileWait := fun _ _ => ⟨0, none⟩,
          finalCheck := .resp 200 ⟨"COMPLETED", some "t1", none⟩ } =
      (some ⟨"COMPLETED", some "t1", none⟩, [Event.statusGet]) ∧
    wait_for_qkview_completion 0 (fun _ => .exn) = (none, []) :=
  ⟨final_status_check_amended.1
      { resp := fun _ => .exn, fileCheck := fun _ => ⟨0, none⟩,
        fileWait := fun _ _ => ⟨0, none⟩,
        finalCheck := .resp 200 ⟨"COMPLETED", some "t1", none⟩ }
      "t1" 0 [] (by decide),
    final_status_check_amended.2 (fun _ => .exn) 0 [] (by decide)⟩

/-- A qkview poll response that keeps the loop going: a successful check
whose status is neither SUCCEEDED nor FAILED. -/
def qkInProg : QkPollResp → Bool
  | .ok info => ¬ (info.status == "SUCCEEDED" ∨ info.status == "FAILED")
  | .exn => false

/-- A qkview poll response that reports the FAILED terminal state. -/
def qkIsFailed : QkPollResp → Bool
  | .ok info => info.status == "FAILED"
  | .exn => false

/-- A UCS poll response that keeps the loop going. -/
def ucsInProg : UcsPollResp → Bool
  | .ok info => ¬ (info.taskState == "COMPLETED" ∨ info.taskState == "FAILED")
  | .exn => false

/-- A UCS poll response that reports the FAILED terminal state. -/
def ucsIsFailed : UcsPollResp → Bool
  | .ok info => info.taskState == "FAILED"
  | .exn => false

/-- If the first `k` responses are successful in-progress checks and the
`k`-th (0-based) reports FAILED, and the deadline allows reaching it, the
qkview loop returns `none` after exactly `k + 1` status checks. -/
theorem qkPollLoop_failed_at (resps : Nat → QkPollResp) (timeout : Nat) :
    ∀ (k fuel t cc : Nat),
      (∀ i, i < k → qkInProg (resps (cc + i)) = true) →
      qkIsFailed (resps (cc + k)) = true →
      t + 15 * k < timeout → timeout + 1 ≤ fuel + t →
      qkPollLoop resps timeout fuel t cc =
        .term none (List.replicate (k + 1) Event.statusGet) := by
  intro k
  induction k with
  | zero =>
    intro fuel t cc _hpre hfail ht hfuel
    rcases fuel with _ | fuel
    · omega
    simp only [Nat.add_zero] at hfail
    simp only [qkPollLoop]
    rw [if_pos (show t < timeout by omega)]
    rcases hr : resps cc with info | _
    · rw [hr] at hfail
      simp only [qkIsFailed] at hfail
      have hne : (info.status == "SUCCEEDED") = false := by
        have : info.status = "FAILED" := by simpa using hfail
        simp [this]
      simp [hne, hfail]
    · rw [hr] at hfail
      simp [qkIsFailed] at hfail
  | succ k ih =>
    intro fuel t cc hpre hfail ht hfuel
    rcases fuel with _ | fuel
    · omega
    simp only [qkPollLoop]
    rw [if_pos (show t < timeout by omega)]
    have h0 : qkInProg (resps cc) = true := by
      have := hpre 0 (by omega)
      simpa using this
    rcases hr : resps cc with info | _
    · rw [hr] at h0
      simp only [qkInProg] at h0
      have hns : (info.status == "SUCCEEDED") = false := by
        rcases h : info.status == "SUCCEEDED" <;> simp [h] at h0 ⊢
      have hnf : (info.status == "FAILED") = false := by
        rcases h : info.status == "FAILED" <;> simp [h] at h0 ⊢
      have hrec := ih fuel (t + 15) (cc + 1)
        (fun i hi => by
          have := hpre (i + 1) (by omega)
          simpa [Nat.add_assoc, Nat.add_comm 1 i] using this)
        (by
          have heq : cc + 1 + k = cc + (k + 1) := by omega
          rw [heq]
          exact hfail)
        (by omega) (by omega)
      simp only [hns, hnf, Bool.false_eq_true, if_false, hrec]
      simp [LoopRes.addTr, List.replicate_succ]
    · rw [hr] at h0
      simp [qkInProg] at h0

/-- If the first `k` responses are successful in-progress checks and the
`k`-th reports FAILED, and the deadline allows reaching it, the UCS loop
returns `none` after exactly `k + 1` status checks (the consecutive-failure
counter, the last-known status and the fuel are arbitrary, subject to the
fuel invariant). -/
theorem ucsPollLoop_failed_at (env : UcsPollEnv) (tid : String) (timeout : Nat) :
    ∀ (k fuel t cc cf : Nat) (lk : Option String),
      (∀ i, i < k → ucsInProg (env.resp (cc + i)) = true) →
      ucsIsFailed (env.resp (cc + k)) = true →
      t + 15 * k < timeout → timeout + 1 ≤ fuel + t →
      ucsPollLoop env tid timeout fuel t cc cf lk =
        .term none (List.replicate (k + 1) Event.statusGet) := by
  intro k
  induction k with
  | zero =>
    intro fuel t cc cf lk _hpre hfail ht hfuel
    rcases fuel with _ | fuel
    · omega
    simp only [Nat.add_zero] at hfail
    simp only [ucsPollLoop]
    rw [if_pos (show t < timeout by omega)]
    rcases hr : env.resp cc with info | _
    · rw [hr] at hfail
      simp only [ucsIsFailed] at hfail
      have hne : (info.taskState == "COMPLETED") = false := by
        have : info.taskState = "FAILED" := by simpa using hfail
        simp [this]
      simp [hne, hfail]
    · rw [hr] at hfail
      simp [ucsIsFailed] at hfail
  | succ k ih =>
    intro fuel t cc cf lk hpre hfail ht hfuel
    rcases fuel with _ | fuel
    · omega
    simp only [ucsPollLoop]
    rw [if_pos (show t < timeout by omega)]
    have h0 : ucsInProg (env.resp cc) = true := by
      have := hpre 0 (by omega)
      simpa using this
    rcases hr : env.resp cc with info | _
    · rw [hr] at h0
      simp only [ucsInProg] at h0
      have hns : (info.taskState == "COMPLETED") = false := by
        rcases h : info.taskState == "COMPLETED" <;> simp [h] at h0 ⊢
      have hnf : (info.taskState == "FAILED") = false := by
        rcases h : info.taskState == "FAILED" <;> simp [h] at h0 ⊢
      have hrec := ih fuel (t + 15) (cc + 1) 0 (some info.taskState)
        (fun i hi => by
          have := hpre (i + 1) (by omega)
          simpa [Nat.add_assoc, Nat.add_comm 1 i] using this)
        (by
          have heq : cc + 1 + k = cc + (k + 1) := by omega
          rw [heq]
          exact hfail)
        (by omega) (by omega)
      simp only [hns, hnf, Bool.false_eq_true, if_false, hrec]
      simp [LoopRes.addTr, List.replicate_succ]
    · rw [hr] at h0
      simp [ucsInProg] at h0

/-- Claim C5: for both artifact kinds, a status check that reports FAILED
terminates polling immediately — the trace holds exactly the `k + 1`
status GETs up to and including that check, so no further GET is issued —
and the poll function returns the failure value `none` instead of raising
(the embedding is total, mirroring the source's catch-all handlers). -/
theorem failed_status_terminates_polling :
    (∀ (resps : Nat → QkPollResp) (timeout k : Nat),
      (∀ i, i < k → qkInProg (resps i) = true) →
      qkIsFailed (resps k) = true → 15 * k < timeout →
      wait_for_qkview_completion timeout resps =
        (none, List.replicate (k + 1) Event.statusGet)) ∧
    (∀ (env : UcsPollEnv) (tid : String) (timeout k : Nat),
      (∀ i, i < k → ucsInProg (env.resp i) = true) →
      ucsIsFailed (env.resp k) = true → 15 * k < timeout →
      wait_for_ucs_completion tid timeout env =
        (none, List.replicate (k + 1) Event.statusGet)) := by
  constructor
  · intro resps timeout k hpre hfail ht
    unfold wait_for_qkview_completion
    rw [qkPollLoop_failed_at resps timeout k (timeout + 1) 0 0
      (by simpa using hpre) (by simpa using hfail) (by omega) (by omega)]
  · intro env tid timeout k hpre hfail ht
    unfold wait_for_ucs_completion
    rw [ucsPollLoop_failed_at env tid timeout k (timeout + 1) 0 0 0 none
      (by simpa using hpre) (by simpa using hfail) (by omega) (by omega)]

/-- Witness for C5: one in-progress check followed by a FAILED check makes
both pollers stop after exactly two status GETs with a `none` result. -/
theorem failed_status_terminates_polling_witness :
    wait_for_qkview_completion 1200
        (fun i => if i = 0 then .ok ⟨"IN_PROGRESS", none, none⟩
          else .ok ⟨"FAILED", none, none⟩) =
      (none, List.replicate 2 Event.statusGet) ∧
    wait_for_ucs_completion "t1" 900
        { resp := fun i => if i = 0 then .ok ⟨"RUNNING", some "t1", none⟩
            else .ok ⟨"FAILED", some "t1", none⟩,
          fileCheck := fun _ => ⟨0, none⟩, fileWait := fun _ _ => ⟨0, none⟩,
          finalCheck := .exn } =
      (none, List.replicate 2 Event.statusGet) :=
  ⟨failed_status_terminates_polling.1 _ 1200 1 (by decide) (by decide) (by decide),
    failed_status_terminates_polling.2 _ "t1" 900 1 (by decide) (by decide) (by decide)⟩

/-- Claim C6: for the backup (UCS) kind, when the task-creation POST
succeeds (2xx with a task id) but the follow-up validate PUT comes back
with any status other than 202 (e.g. a 500), the whole
`create_and_download_ucs` operation returns overall failure with a trace
of exactly the creation POST and the validate PUT — in particular it never
issues a GET to the task status-poll endpoint. -/
theorem ucs_validate_failure_no_poll (noDelete : Bool) (env : UcsRunEnv)
    (tid : String)
    (hexn : env.create.postExn = false)
    (hstat : env.create.postStatus = 200 ∨ env.create.postStatus = 202)
    (htid : env.create.postTaskId = some tid)
    (hvexn : env.create.validateExn = false)
    (hv : env.create.validateStatus ≠ 202) :
    create_and_download_ucs noDelete env =
      (false, [Event.createTaskPost, Event.validatePut]) ∧
    Event.statusGet ∉ (create_and_download_ucs noDelete env).2 := by
  have hvb : (env.create.validateStatus == 202) = false := by
    simpa using hv
  have hc : create_ucs_task env.ucsFilename env.simpleFilename env.create =
      (none, [Event.createTaskPost, Event.validatePut]) := by
    rcases hstat with h | h <;>
      simp [create_ucs_task, validate_ucs_task, hexn, htid, hvexn, hvb, h]
  have hrun : create_and_download_ucs noDelete env =
      (false, [Event.createTaskPost, Event.validatePut]) := by
    simp [create_and_download_ucs, hc]
  exact ⟨hrun, by rw [hrun]; decide⟩

/-- Witness for C6: a concrete run whose creation POST returns 202 with
task id `t1` and whose validate PUT returns 500 fails overall with only
the POST and the PUT on the wire. -/
theorem ucs_validate_failure_no_poll_witness :
    create_and_download_ucs false
        ⟨⟨false, 202, some "t1", "", false, 500, 0, none, false, 0⟩,
          "dev.ucs", "ucs_1.ucs", 900,
          ⟨fun _ => .exn, fun _ => ⟨0, none⟩, fun _ _ => ⟨0, none⟩, .exn⟩,
          ⟨0, none⟩,
          ⟨⟨⟨0, none⟩, ⟨0, none⟩⟩, ⟨0, none⟩, "", ⟨0, none⟩,
            ⟨⟨0, none⟩, 1, fun _ => .exn⟩⟩,
          ⟨⟨0, none⟩, ⟨0, none⟩, ⟨0, none⟩, ⟨0, none⟩, ⟨0, none⟩⟩⟩ =
      (false, [Event.createTaskPost, Event.validatePut]) :=
  (ucs_validate_failure_no_poll false _ "t1" rfl (Or.inr rfl) rfl rfl
    (by decide)).1

/-- Range-request responses: a first 200 carrying a 2MB-plus-one-byte total
(so several chunks are needed), then a 206, then a 500. -/
def qk206Env : Nat → RangeResp := fun i =>
  if i = 0 then .ok (some 2097153) [7, 7, 7]
  else if i = 1 then .code206
  else .codeOther 500

/-- Counterexample to claim C7: an HTTP 206 is NOT handled identically to
a 200. After the first 200 the loop has advanced to the range
524288-1048575; the 206 response leaves the state completely unchanged —
no body byte is written (the file still holds exactly the 3 bytes of the
first chunk) and the range does not advance, so the very same range
524288-1048575 is requested again, as the repeated `rangeGet` entries of
the trace show (the subsequent 500 then fails the strategy). -/
theorem chunked_206_retry_counterexample :
    qkChunkLoop qk206Env 10 0 qkChunkInit =
      .failed ⟨524288, 1048575, 2097152, 524288, [7, 7, 7]⟩
        [Event.rangeGet 0 524287, Event.rangeGet 524288 1048575,
          Event.rangeGet 524288 1048575] := by
  decide

/-- The move-then-fetch strategy always opens with the unix-mv request
that moves the artifact into the staging directory. -/
theorem ft_trace_head (fn : String) (ap : Option String) (env : FtEnv) :
    (download_via_file_transfer fn ap env).2.head? =
      some (Event.unixMv (ap.getD ("/var/tmp/" ++ fn))
        ("/var/config/rest/downloads/" ++ fn)) := by
  by_cases h1 : env.mvStatus = 200 <;>
    by_cases h2 : env.bashMvStatus = 200 <;>
      by_cases h3 : env.bashMvResult.isSome = true ∧
        containsStr (env.bashMvResult.getD "") "No such file" = true <;>
    simp [download_via_file_transfer, h1, h2, h3] <;>
    split <;> simp

/-- Claim C7 (amended): in the direct-URI chunked strategy an HTTP 206
response is NOT treated like a 200 — it leaves the loop state unchanged,
so the same range is retried with nothing written; an HTTP 400 is treated
as successful completion exactly when some bytes are already written, the
total size is known and the written count is within 1KB of the expected
total, and otherwise fails the strategy; any other status (or a transport
exception) fails the strategy; and when this first strategy fails with a
filename in hand, `_download_qkview` falls through to the move-then-fetch
strategy (its opening unix-mv request appears in the run's trace). -/
theorem chunked_status_handling_amended :
    (∀ st : QkChunkSt, qkChunkStep st .code206 = .next st) ∧
    (∀ st : QkChunkSt, qkChunkStep st .code400 =
      if 0 < st.written.length ∧ 0 < st.size ∧
          ((st.written.length : Int) - (st.size + 1)).natAbs ≤ 1024 then
        .brk st
      else .fail st) ∧
    (∀ (st : QkChunkSt) (c : Nat), qkChunkStep st (.codeOther c) = .fail st) ∧
    (∀ st : QkChunkSt, qkChunkStep st .exn = .fail st) ∧
    (∀ (info : QkInfo) (env : QkDlEnv) (fn : String),
      info.name = some fn →
      (download_via_autodeploy_uri env.baseUrl info env.m1).1.1 = false →
      ∃ s d, Event.unixMv s d ∈ (download_qkview info env).2) := by
  refine ⟨fun st => rfl, fun st => rfl, fun st c => rfl, fun st => rfl, ?_⟩
  intro info env fn hn hfail
  have hrest := ft_trace_head fn (find_qkview_file fn env.find).1 env.m2
  have hmem : Event.unixMv ((find_qkview_file fn env.find).1.getD ("/var/tmp/" ++ fn))
      ("/var/config/rest/downloads/" ++ fn) ∈
      (download_via_file_transfer fn (find_qkview_file fn env.find).1 env.m2).2 := by
    rcases htr : (download_via_file_transfer fn (find_qkview_file fn env.find).1 env.m2).2
      with _ | ⟨a, rest⟩
    · rw [htr] at hrest
      simp at hrest
    · rw [htr] at hrest
      simp at hrest
      simp [htr, hrest]
  refine ⟨(find_qkview_file fn env.find).1.getD ("/var/tmp/" ++ fn),
    "/var/config/rest/downloads/" ++ fn, ?_⟩
  simp only [download_qkview, hn, hfail, Bool.false_eq_true, if_false]
  split
  · simp [hmem]
  · split <;> simp [hmem]

/-- Witness for the amended C7: (i) the 400-acceptance step at a state 6
bytes short of nothing (written 4 bytes, expected 4) breaks out as
success; (ii) with a direct URI whose very first range request gets a 500,
the strategy fails and a unix-mv of the fall-through strategy shows up in
the download trace. -/
theorem chunked_status_handling_amended_witness :
    qkChunkStep ⟨0, 3, 3, 4, [9, 9, 9, 9]⟩ .code400 =
      .brk ⟨0, 3, 3, 4, [9, 9, 9, 9]⟩ ∧
    ∃ s d, Event.unixMv s d ∈
      (download_qkview ⟨"SUCCEEDED", some "f.qkview", some "/mgmt/uri"⟩
        ⟨"https://h", ⟨fun _ => ⟨200, some "NOT_FOUND"⟩, fun _ => ⟨200, some ""⟩⟩,
          ⟨9, fun _ => .codeOther 500⟩,
          ⟨200, 0, none, ⟨false, 0, [1, 2, 3]⟩⟩,
          ⟨0, none, 0, none, ⟨false, 0, []⟩⟩⟩).2 :=
  ⟨by
    have h := chunked_status_handling_amended.2.1 ⟨0, 3, 3, 4, [9, 9, 9, 9]⟩
    rw [h]
    decide,
   chunked_status_handling_amended.2.2.2.2
      ⟨"SUCCEEDED", some "f.qkview", some "/mgmt/uri"⟩
      ⟨"https://h", ⟨fun _ => ⟨200, some "NOT_FOUND"⟩, fun _ => ⟨200, some ""⟩⟩,
        ⟨9, fun _ => .codeOther 500⟩,
        ⟨200, 0, none, ⟨false, 0, [1, 2, 3]⟩⟩,
        ⟨0, none, 0, none, ⟨false, 0, []⟩⟩⟩
      "f.qkview" rfl (by decide)⟩

/-- Helper: whenever a Content-Length was reported and the written byte
count differs from it by more than 1KB, `_perform_download` returns
failure — it has no further fallback of any kind. -/
theorem perform_download_mismatch (fn : String) (pd : PdEnv)
    (h1 : pd.exn = false) (h2 : 0 < pd.contentLength)
    (h3 : 1024 < natDiff pd.body.length pd.contentLength) :
    (perform_download fn pd).1 = (false, pd.body.length) := by
  simp only [perform_download, h1, Bool.false_eq_true, if_false]
  by_cases hm : pd.body.length < 5 * 1024 * 1024 ∧
      hasMarkers (pd.body.take 100) = true
  · rw [if_pos hm]
  · rw [if_neg hm, if_pos ⟨h2, h3⟩]

/-- The plain-fetch download body used in the C8 counterexample: 997952
bytes against a reported Content-Length of 1000000 — more than 1KB short,
but comfortably above 95 percent of the expected size. -/
def pdShortBody : PdEnv := ⟨false, 1000000, List.replicate 997952 55⟩

/-- Counterexample to claim C8: the claim says every strategy accepts at
least 95 percent of the expected size as a last resort, but
`_perform_download` (the fetch behind the move-then-fetch and
copy-then-fetch strategies) has no such fallback: a 997952-byte download
against Content-Length 1000000 is 99.8 percent of the expected size
(19 * 1000000 ≤ 20 * 997952) yet more than 1KB short, and the function
returns failure. -/
theorem perform_download_no_95_percent_counterexample :
    (perform_download "f.qkview" pdShortBody).1 = (false, 997952) ∧
    19 * 1000000 ≤ 20 * 997952 ∧ 1024 < natDiff 997952 1000000 := by
  have hlen : (List.replicate 997952 (55 : Nat)).length = 997952 :=
    List.length_replicate 997952 55
  have h := perform_download_mismatch "f.qkview" pdShortBody rfl (by decide)
    (by
      show 1024 < natDiff (List.replicate 997952 (55 : Nat)).length 1000000
      rw [hlen]
      norm_num [natDiff])
  refine ⟨?_, by norm_num, by norm_num [natDiff]⟩
  have hb : pdShortBody.body.length = 997952 := hlen
  rw [h, hb]

/-- Claim C8 (amended): the two chunked strategies, when an expected size
is known, fail exactly when the final size misses it by more than 1KB AND
falls below 95 percent of it; every other completed chunked download is
then error-sniffed ONLY when it is smaller than 1MB (HTML/error markers in
the first 100 bytes fail it). The plain fetch `_perform_download`, by
contrast, has no 95-percent fallback — any reported Content-Length missed
by more than 1KB is failure — and sniffs only bodies under 5MB, so a large
download is never sniffed. -/
theorem download_verification_amended :
    (∀ (size : Int) (content : List Nat),
      qkChunkFinish size content =
        if 0 < size ∧ 1024 < ((content.length : Int) - (size + 1)).natAbs ∧
            20 * (content.length : Int) < 19 * (size + 1) then
          (false, content.length)
        else if content.length < 1024 * 1024 ∧ hasMarkers (content.take 100) then
          (false, content.length)
        else (true, content.length)) ∧
    (∀ (total : Nat) (content : List Nat),
      ucsChunkFinish total content =
        if 0 < total ∧ 1024 < natDiff content.length total ∧
            20 * content.length < 19 * total then
          (false, content.length)
        else if content.length < 1024 * 1024 ∧ hasMarkers (content.take 100) then
          (false, content.length)
        else (true, content.length)) ∧
    (∀ (fn : String) (pd : PdEnv), pd.exn = false → 0 < pd.contentLength →
      1024 < natDiff pd.body.length pd.contentLength →
      (perform_download fn pd).1 = (false, pd.body.length)) ∧
    (∀ (fn : String) (pd : PdEnv), pd.exn = false →
      5 * 1024 * 1024 ≤ pd.body.length → pd.contentLength = 0 →
      (perform_download fn pd).1 = (true, pd.body.length)) := by
  refine ⟨?_, ?_, perform_download_mismatch, ?_⟩
  · intro size content
    simp only [qkChunkFinish, qkSniff, beq_iff_eq]
    split_ifs <;> first | rfl | omega | tauto | simp_all
  · intro total content
    simp only [ucsChunkFinish, ucsSniff, beq_iff_eq, natDiff]
    split_ifs <;> first | rfl | omega | tauto | simp_all
  · intro fn pd h1 h2 h3
    simp only [perform_download, h1, Bool.false_eq_true, if_false]
    rw [if_neg (by omega), if_neg (by simp [h3])]

/-- Witness for the amended C8: applying the no-95-percent-fallback part
at a 1997952-byte body against Content-Length 2000000 (99.9 percent of
expected, 2048 bytes short) yields failure. -/
theorem download_verification_amended_witness :
    (perform_download "x.qkview" ⟨false, 2000000, List.replicate 1997952 55⟩).1 =
      (false, (List.replicate 1997952 (55 : Nat)).length) :=
  download_verification_amended.2.2.1 "x.qkview"
    ⟨false, 2000000, List.replicate 1997952 55⟩ rfl (by decide)
    (by
      show 1024 < natDiff (List.replicate 1997952 (55 : Nat)).length 2000000
      rw [List.length_replicate 1997952 55]
      norm_num [natDiff])

/-!
## Trace-shape lemmas

These record which events each embedded function can emit; they feed the
destructive-call and prompt-freedom claims.
-/

/-- Trace of a polling-loop outcome. -/
def LoopRes.tr {α : Type} : LoopRes α → List Event
  | .term _ tr => tr
  | .timeout tr => tr
  | .fuelOut tr => tr

/-- `addTr` prepends to the trace. -/
theorem LoopRes.tr_addTr {α : Type} (es : List Event) (r : LoopRes α) :
    (r.addTr es).tr = es ++ r.tr := by
  cases r <;> rfl

/-- The plain fetch emits exactly its one streaming GET. -/
theorem perform_download_tr (fn : String) (pd : PdEnv) :
    (perform_download fn pd).2 = [Event.transferGet fn] := by
  simp only [perform_download]
  split
  · rfl
  · split
    · rfl
    · split <;> rfl

/-- The exact-location probes of the qkview locator emit only `ls`. -/
theorem qkFindLocLoop_tr (env : Nat → CmdResp) :
    ∀ (locs : List String) (i : Nat) (e : Event),
      e ∈ (qkFindLocLoop env i locs).2 → ∃ a, e = Event.bashLs a := by
  intro locs
  induction locs with
  | nil => intro i e he; simp [qkFindLocLoop] at he
  | cons loc rest ih =>
    intro i e he
    simp only [qkFindLocLoop] at he
    split at he
    · split at he
      · split at he
        · simp at he
          exact ⟨loc, he⟩
        · simp at he
          rcases he with he | he
          · exact ⟨loc, he⟩
          · exact ih (i + 1) e he
      · simp at he
        rcases he with he | he
        · exact ⟨loc, he⟩
        · exact ih (i + 1) e he
    · simp at he
      rcases he with he | he
      · exact ⟨loc, he⟩
      · exact ih (i + 1) e he

/-- The glob probes of the qkview locator emit only `ls`. -/
theorem qkFindPatLoop_tr (fn : String) (env : Nat → CmdResp) :
    ∀ (pats : List String) (i : Nat) (e : Event),
      e ∈ (qkFindPatLoop fn env i pats).2 → ∃ a, e = Event.bashLs a := by
  intro pats
  induction pats with
  | nil => intro i e he; simp [qkFindPatLoop] at he
  | cons pat rest ih =>
    intro i e he
    simp only [qkFindPatLoop] at he
    split at he
    · split at he
      · split at he
        · split at he
          · simp at he
            exact ⟨pat, he⟩
          · simp at he
            rcases he with he | he
            · exact ⟨pat, he⟩
            · exact ih (i + 1) e he
        · simp at he
          rcases he with he | he
          · exact ⟨pat, he⟩
          · exact ih (i + 1) e he
      · simp at he
        rcases he with he | he
        · exact ⟨pat, he⟩
        · exact ih (i + 1) e he
    · simp at he
      rcases he with he | he
      · exact ⟨pat, he⟩
      · exact ih (i + 1) e he

/-- The qkview locator emits only `ls` probes. -/
theorem find_qkview_file_tr (fn : String) (env : QkFindEnv) (e : Event) :
    e ∈ (find_qkview_file fn env).2 → ∃ a, e = Event.bashLs a := by
  intro he
  simp only [find_qkview_file] at he
  split at he
  · exact qkFindLocLoop_tr env.loc _ 0 e he
  · simp at he
    rcases he with he | he
    · exact qkFindLocLoop_tr env.loc _ 0 e he
    · exact qkFindPatLoop_tr fn env.pat _ 0 e he

/-- Trace of a chunked-loop outcome. -/
def QkChunkOut.tr : QkChunkOut → List Event
  | .done _ tr => tr
  | .failed _ tr => tr
  | .fuelOut _ tr => tr

/-- `consTr` prepends to the trace. -/
theorem QkChunkOut.tr_consTr (e : Event) (o : QkChunkOut) :
    (o.consTr e).tr = e :: o.tr := by
  cases o <;> rfl

/-- The chunked range loop emits only range GETs. -/
theorem qkChunkLoop_tr (env : Nat → RangeResp) :
    ∀ (fuel i : Nat) (st : QkChunkSt) (e : Event),
      e ∈ (qkChunkLoop env fuel i st).tr →
      ∃ a b, e = Event.rangeGet a b := by
  intro fuel
  induction fuel with
  | zero => intro i st e he; simp [qkChunkLoop, QkChunkOut.tr] at he
  | succ fuel ih =>
    intro i st e he
    simp only [qkChunkLoop] at he
    rcases hs : qkChunkStep st (env i) with st2 | st2 | st2 <;> rw [hs] at he
    · simp only [QkChunkOut.tr_consTr, List.mem_cons] at he
      rcases he with he | he
      · exact ⟨st.start, st.stop, he⟩
      · exact ih (i + 1) st2 e he
    · simp [QkChunkOut.tr] at he
      exact ⟨st.start, st.stop, he⟩
    · simp [QkChunkOut.tr] at he
      exact ⟨st.start, st.stop, he⟩

/-- The whole chunked strategy emits only range GETs. -/
theorem download_chunked_f5_method_tr (env : QkChunkEnv) (e : Event) :
    e ∈ (download_chunked_f5_method env).2 → ∃ a b, e = Event.rangeGet a b := by
  intro he
  have h := qkChunkLoop_tr env.resp env.fuel 0 qkChunkInit e
  unfold download_chunked_f5_method at he
  rcases hl : qkChunkLoop env.resp env.fuel 0 qkChunkInit with _ | _ | _ <;>
    rw [hl] at he h <;> exact h he

/-- The autodeploy-URI strategy emits only range GETs. -/
theorem download_via_autodeploy_uri_tr (baseUrl : String) (info : QkInfo)
    (env : QkChunkEnv) (e : Event) :
    e ∈ (download_via_autodeploy_uri baseUrl info env).2 →
    ∃ a b, e = Event.rangeGet a b := by
  intro he
  rcases h : info.qkviewUri with _ | uri <;>
    simp only [download_via_autodeploy_uri, h] at he
  · simp at he
  · exact download_chunked_f5_method_tr env e he

/-- The only destructive call the move-then-fetch strategy can make is the
removal of its own staged copy in the downloads directory. -/
theorem download_via_file_transfer_destructive (fn : String)
    (ap : Option String) (env : FtEnv) (e : Event) :
    e ∈ (download_via_file_transfer fn ap env).2 → destructive e = true →
    e = Event.bashRm ("/var/config/rest/downloads/" ++ fn) := by
  intro he hd
  by_cases h1 : env.mvStatus = 200 <;>
    by_cases h2 : env.bashMvStatus = 200 <;>
      by_cases h3 : env.bashMvResult.isSome = true ∧
        containsStr (env.bashMvResult.getD "") "No such file" = true <;>
    simp [download_via_file_transfer, perform_download_tr, h1, h2, h3] at he <;>
    (try split at he) <;> (try simp at he) <;>
    (try casesm* _ ∨ _) <;> subst_vars <;> simp_all [destructive]

/-- The only destructive call the copy-then-fetch strategy can make is the
removal of its own staged copy in the downloads directory. -/
theorem download_via_bash_copy_destructive (fn : String)
    (ap : Option String) (env : BcEnv) (e : Event) :
    e ∈ (download_via_bash_copy fn ap env).2 → destructive e = true →
    e = Event.bashRm ("/var/config/rest/downloads/" ++ fn) := by
  intro he hd
  simp only [download_via_bash_copy, perform_download_tr] at he
  split at he <;> (try split at he) <;> (try split at he) <;>
    simp at he <;> (try casesm* _ ∨ _) <;> subst_vars <;>
    simp_all [destructive]

/-- The only destructive call of a whole `_download_qkview` attempt is the
staged-copy removal of a fallback strategy. -/
theorem download_qkview_destructive (info : QkInfo) (env : QkDlEnv) (e : Event) :
    e ∈ (download_qkview info env).2 → destructive e = true →
    ∃ fn, e = Event.bashRm ("/var/config/rest/downloads/" ++ fn) := by
  intro he hd
  rcases hn : info.name with _ | fn <;>
    simp only [download_qkview, hn] at he
  · simp at he
  · have hf := find_qkview_file_tr fn env.find e
    have h1 := download_via_autodeploy_uri_tr env.baseUrl info env.m1 e
    have h2 := download_via_file_transfer_destructive fn
      (find_qkview_file fn env.find).1 env.m2 e
    have h3 := download_via_bash_copy_destructive fn
      (find_qkview_file fn env.find).1 env.m3 e
    split at he
    · simp only [List.mem_append] at he
      rcases he with he | he
      · obtain ⟨a, ha⟩ := hf he
        subst ha
        simp [destructive] at hd
      · obtain ⟨a, b, hab⟩ := h1 he
        subst hab
        simp [destructive] at hd
    · split at he
      · simp only [List.mem_append] at he
        rcases he with (he | he) | he
        · obtain ⟨a, ha⟩ := hf he
          subst ha
          simp [destructive] at hd
        · obtain ⟨a, b, hab⟩ := h1 he
          subst hab
          simp [destructive] at hd
        · exact ⟨fn, h2 he hd⟩
      · split at he <;>
          simp only [List.mem_append] at he <;>
          rcases he with ((he | he) | he) | he
        · obtain ⟨a, ha⟩ := hf he
          subst ha
          simp [destructive] at hd
        · obtain ⟨a, b, hab⟩ := h1 he
          subst hab
          simp [destructive] at hd
        · exact ⟨fn, h2 he hd⟩
        · exact ⟨fn, h3 he hd⟩
        · obtain ⟨a, ha⟩ := hf he
          subst ha
          simp [destructive] at hd
        · obtain ⟨a, b, hab⟩ := h1 he
          subst hab
          simp [destructive] at hd
        · exact ⟨fn, h2 he hd⟩
        · exact ⟨fn, h3 he hd⟩

/-- Task creation emits only creation POSTs. -/
theorem create_qkview_task_tr (env : QkCreateEnv) (e : Event) :
    e ∈ (create_qkview_task env).2 → e = Event.createTaskPost := by
  intro he
  simp only [create_qkview_task] at he
  split at he
  · simp at he
    exact he
  · split at he
    · simp at he
      exact he
    · split at he
      · split at he <;> simp at he <;> tauto
      · simp at he
        exact he

/-- The qkview polling loop emits only status GETs. -/
theorem qkPollLoop_tr (resps : Nat → QkPollResp) (timeout : Nat) :
    ∀ (fuel t cc : Nat) (e : Event),
      e ∈ (qkPollLoop resps timeout fuel t cc).tr → e = Event.statusGet := by
  intro fuel
  induction fuel with
  | zero => intro t cc e he; simp [qkPollLoop, LoopRes.tr] at he
  | succ fuel ih =>
    intro t cc e he
    simp only [qkPollLoop] at he
    by_cases ht : t < timeout
    · rw [if_pos ht] at he
      rcases hr : resps cc with info | _ <;> rw [hr] at he
      · by_cases h1 : info.status == "SUCCEEDED"
        · simp [h1, LoopRes.tr] at he
          exact he
        · by_cases h2 : info.status == "FAILED"
          · simp [h1, h2, LoopRes.tr] at he
            exact he
          · simp only [h1, h2, Bool.false_eq_true, if_false,
              LoopRes.tr_addTr] at he
            simp at he
            rcases he with he | he
            · exact he
            · exact ih (t + 15) (cc + 1) e he
      · by_cases h3 : cc + 1 ≥ 3
        · simp [h3, LoopRes.tr] at he
          exact he
        · simp only [if_neg h3, LoopRes.tr_addTr] at he
          simp at he
          rcases he with he | he
          · exact he
          · exact ih (t + 15) (cc + 1) e he
    · rw [if_neg ht] at he
      simp [LoopRes.tr] at he

/-- The qkview poll as a whole emits only status GETs. -/
theorem wait_for_qkview_completion_tr (timeout : Nat) (resps : Nat → QkPollResp)
    (e : Event) :
    e ∈ (wait_for_qkview_completion timeout resps).2 → e = Event.statusGet := by
  intro he
  have h := qkPollLoop_tr resps timeout (timeout + 1) 0 0 e
  unfold wait_for_qkview_completion at he
  rcases hl : qkPollLoop resps timeout (timeout + 1) 0 0 with _ | _ | _ <;>
    rw [hl] at he h <;> exact h he

/-- With the no-delete flag set, step 4 of the qkview run emits nothing. -/
theorem create_and_download_qkview_steps_noDelete (createRes : Option String)
    (pollRes : Option QkInfo) (dl : Bool × Nat) :
    (create_and_download_qkview_steps true createRes pollRes dl).2 = [] := by
  rcases createRes with _ | tid
  · rfl
  rcases pollRes with _ | info
  · rfl
  simp only [create_and_download_qkview_steps]
  split
  · split
    · split <;> rfl
    · rfl
  · rfl

/-- UCS task creation emits only creation POSTs and validate PUTs. -/
theorem create_ucs_task_tr (ucsFilename simpleFilename : String)
    (env : UcsCreateEnv) (e : Event) :
    e ∈ (create_ucs_task ucsFilename simpleFilename env).2 →
    e = Event.createTaskPost ∨ e = Event.validatePut := by
  intro he
  simp only [create_ucs_task, validate_ucs_task] at he
  split at he
  · simp at he
    tauto
  · split at he
    · split at he <;> (try split at he) <;> (try split at he) <;>
        simp at he <;> tauto
    · split at he
      · split at he
        · split at he <;> (try split at he) <;> (try split at he) <;>
            simp at he <;> tauto
        · simp at he
          tauto
      · simp at he
        tauto

/-- The exists-check of the polling loop emits exactly one `ls` probe. -/
theorem check_ucs_file_exists_tr (r : CmdResp) :
    (check_ucs_file_exists r).2 = [Event.bashLs "/var/local/ucs/*.ucs"] := by
  simp only [check_ucs_file_exists]
  split <;> (try split) <;> (try split) <;> (try split) <;> (try split) <;> rfl

/-- The file-growth monitor emits only `ls` probes. -/
theorem fileWaitLoop_tr (env : Nat → CmdResp) :
    ∀ (n i last stable : Nat) (e : Event),
      e ∈ (fileWaitLoop env n i last stable).2 →
      e = Event.bashLs "/var/local/ucs/*.ucs" := by
  intro n
  induction n with
  | zero => intro i last stable e he; simp [fileWaitLoop] at he
  | succ n ih =>
    intro i last stable e he
    simp only [fileWaitLoop] at he
    split at he
    · split at he
      · simp at he
        exact he
      · simp at he
        rcases he with he | he
        · exact he
        · exact ih (i + 1) _ _ e he
    · simp at he
      rcases he with he | he
      · exact he
      · exact ih (i + 1) _ _ e he

/-- The UCS polling loop emits only status GETs and `ls` probes. -/
theorem ucsPollLoop_tr (env : UcsPollEnv) (tid : String) (timeout : Nat) :
    ∀ (fuel t cc cf : Nat) (lk : Option String) (e : Event),
      e ∈ (ucsPollLoop env tid timeout fuel t cc cf lk).tr →
      e = Event.statusGet ∨ e = Event.bashLs "/var/local/ucs/*.ucs" := by
  intro fuel
  induction fuel with
  | zero => intro t cc cf lk e he; simp [ucsPollLoop, LoopRes.tr] at he
  | succ fuel ih =>
    intro t cc cf lk e he
    simp only [ucsPollLoop] at he
    by_cases ht : t < timeout
    · rw [if_pos ht] at he
      rcases hr : env.resp cc with info | _ <;> rw [hr] at he
      · by_cases h1 : info.taskState == "COMPLETED"
        · simp [h1, LoopRes.tr] at he
          tauto
        · by_cases h2 : info.taskState == "FAILED"
          · simp [h1, h2, LoopRes.tr] at he
            tauto
          · simp only [h1, h2, Bool.false_eq_true, if_false,
              LoopRes.tr_addTr] at he
            simp at he
            rcases he with he | he
            · tauto
            · exact ih (t + 15) (cc + 1) 0 (some info.taskState) e he
      · have hW : e ∈ (wait_for_file_completion (env.fileWait cc)).2 →
            e = Event.bashLs "/var/local/ucs/*.ucs" :=
          fileWaitLoop_tr (env.fileWait cc) 10 0 0 0 e
        have hrec := ih (t + 15) (cc + 1) 5 lk e
        have hrec2 := ih (t + 15) (cc + 1) (cf + 1) lk e
        by_cases h3 : cf + 1 ≥ 10
        · rw [if_pos h3] at he
          rcases hc : check_ucs_file_exists (env.fileCheck cc) with ⟨ores, trC⟩
          rw [hc] at he
          have htrC : trC = [Event.bashLs "/var/local/ucs/*.ucs"] := by
            have h := check_ucs_file_exists_tr (env.fileCheck cc)
            rw [hc] at h
            exact h
          subst htrC
          rcases ores with _ | ⟨ex, sz⟩
          · simp [LoopRes.tr] at he
            tauto
          · by_cases hex : ex = true
            · simp only [hex, if_true] at he
              by_cases hw : (wait_for_file_completion (env.fileWait cc)).1 = true
              · simp [hw, LoopRes.tr] at he
                tauto
              · simp only [Bool.not_eq_true] at hw
                by_cases hhalf : 2 * t < timeout
                · simp only [hw, hhalf, Bool.false_eq_true, if_false, if_true,
                    LoopRes.tr_addTr] at he
                  simp at he
                  tauto
                · simp [hw, hhalf, LoopRes.tr] at he
                  tauto
            · simp only [Bool.not_eq_true] at hex
              by_cases hhalf : 2 * t < timeout
              · simp only [hex, hhalf, Bool.false_eq_true, if_false, if_true,
                  LoopRes.tr_addTr] at he
                simp at he
                tauto
              · simp [hex, hhalf, LoopRes.tr] at he
                tauto
        · rw [if_neg h3, LoopRes.tr_addTr] at he
          simp at he
          tauto
    · rw [if_neg ht] at he
      simp [LoopRes.tr] at he

/-- The whole UCS poll emits only status GETs and `ls` probes. -/
theorem wait_for_ucs_completion_tr (tid : String) (timeout : Nat)
    (env : UcsPollEnv) (e : Event) :
    e ∈ (wait_for_ucs_completion tid timeout env).2 →
    e = Event.statusGet ∨ e = Event.bashLs "/var/local/ucs/*.ucs" := by
  intro he
  have h := ucsPollLoop_tr env tid timeout (timeout + 1) 0 0 0 none e
  unfold wait_for_ucs_completion at he
  rcases hl : ucsPollLoop env tid timeout (timeout + 1) 0 0 0 none
    with _ | _ | _ <;> rw [hl] at he h
  · exact h he
  · rcases hf : env.finalCheck with ⟨st, info⟩ | _ <;> rw [hf] at he <;>
      simp at he <;> rcases he with he | he <;>
      first | exact h he | tauto
  · exact h he

/-- The by-name existence probe emits exactly one bash conditional. -/
theorem check_if_ucs_exists_by_name_tr (fn : String) (r : CmdResp) :
    (check_if_ucs_exists_by_name fn r).2 =
      [Event.bashCheck ("/var/local/ucs/" ++ fn)] := by
  simp only [check_if_ucs_exists_by_name]
  split <;> (try split) <;> (try split) <;> (try split) <;> rfl

/-- The UCS locator emits only its two `ls` probes. -/
theorem find_ucs_file_tr (fn : String) (env : UcsFindEnv) (e : Event) :
    e ∈ (find_ucs_file fn env).2 →
    e = Event.bashLs ("/var/local/ucs/" ++ fn) ∨
    e = Event.bashLs "/var/local/ucs/*.ucs" := by
  intro he
  simp only [find_ucs_file] at he
  split at he <;> (try split at he) <;> (try split at he) <;>
    (try split at he) <;> (try split at he) <;> (try split at he) <;>
    simp at he <;> tauto

/-- Trace of a dd-loop outcome. -/
def UcsChunkOut.tr : UcsChunkOut → List Event
  | .done _ tr => tr
  | .failed _ tr => tr
  | .fuelOut _ tr => tr

/-- `consTr` prepends to the trace. -/
theorem UcsChunkOut.trConsUcs (e : Event) (o : UcsChunkOut) :
    (o.consTr e).tr = e :: o.tr := by
  cases o <;> rfl

/-- The dd-read loop emits only dd reads. -/
theorem ucsChunkLoop_tr (total : Nat) (env : Nat → UcsChunkResp) :
    ∀ (fuel i : Nat) (st : UcsChunkSt) (e : Event),
      e ∈ (ucsChunkLoop total env fuel i st).tr →
      ∃ a b, e = Event.bashDd a b := by
  intro fuel
  induction fuel with
  | zero => intro i st e he; simp [ucsChunkLoop, UcsChunkOut.tr] at he
  | succ fuel ih =>
    intro i st e he
    simp only [ucsChunkLoop] at he
    split at he
    · simp [UcsChunkOut.tr] at he
    · rcases hr : env i with odata | c | _ <;> rw [hr] at he
      · rcases odata with _ | data
        · simp [UcsChunkOut.tr] at he
          exact ⟨_, _, he⟩
        · by_cases hempty : data.isEmpty = true
          · simp [hempty, UcsChunkOut.tr] at he
            exact ⟨_, _, he⟩
          · by_cases hlen : data.length <
                (if total > 0 then min ucsChunkSize (total - st.start)
                 else ucsChunkSize)
            · simp [hempty, hlen, UcsChunkOut.tr] at he
              exact ⟨_, _, he⟩
            · have hrec := ih (i + 1)
                ⟨st.start + data.length, st.current + data.length,
                  st.written ++ data⟩ e
              simp [hempty, hlen, UcsChunkOut.trConsUcs] at he
              rcases he with he | he
              · exact ⟨_, _, he⟩
              · exact hrec he
      · simp [UcsChunkOut.tr] at he
        exact ⟨_, _, he⟩
      · simp [UcsChunkOut.tr] at he
        exact ⟨_, _, he⟩

/-- The UCS chunked download emits only its stat probe and dd reads. -/
theorem ucs_download_chunked_tr (p : String) (env : UcsChunkEnv) (e : Event) :
    e ∈ (ucs_download_chunked p env).2 →
    e = Event.bashStat p ∨ ∃ a b, e = Event.bashDd a b := by
  intro he
  have h := ucsChunkLoop_tr (parseStatSize env.sizeResp) env.chunk env.fuel 0
    ⟨0, 0, []⟩ e
  simp only [ucs_download_chunked] at he
  rcases hl : ucsChunkLoop (parseStatSize env.sizeResp) env.chunk env.fuel 0
    ⟨0, 0, []⟩ with _ | _ | _ <;> rw [hl] at he h <;> simp at he <;>
    rcases he with he | he <;>
    first | tauto | exact Or.inr (h he)

set_option maxHeartbeats 1000000 in
/-- `_download_ucs` makes no destructive call: its events are locator and
stat probes, the optional operator prompt, the readability check and dd
reads. -/
theorem download_ucs_destructive (fn : String) (env : UcsDlEnv) (e : Event) :
    e ∈ (download_ucs fn env).2 → destructive e = false := by
  intro he
  have hf := find_ucs_file_tr fn env.find e
  rcases hp : (find_ucs_file fn env.find).1 with _ | p <;>
    simp only [download_ucs, hp] at he
  · rcases hf he with ha | ha <;> subst ha <;> rfl
  · have hc := ucs_download_chunked_tr p env.chunk e
    have hmem : e ∈ (find_ucs_file fn env.find).2 ∨ e = Event.bashStat p ∨
        e = Event.prompt ucsPromptMsg ∨ e = Event.bashCheck p ∨
        e ∈ (ucs_download_chunked p env.chunk).2 := by
      split at he <;> (try split at he) <;> (try split at he) <;>
        (try split at he) <;> simp at he <;> tauto
    rcases hmem with h1 | h1 | h1 | h1 | h1
    · rcases hf h1 with ha | ha <;> subst ha <;> rfl
    · subst h1; rfl
    · subst h1; rfl
    · subst h1; rfl
    · rcases hc h1 with h2 | ⟨a, b, h2⟩ <;> subst h2 <;> rfl

/-- With the no-delete flag set, steps 3-4 of the UCS run emit nothing. -/
theorem create_and_download_ucs_afterPoll_noDelete (info : UcsInfo)
    (fn : String) (dl : Bool × Nat) (clEnv : UcsCleanupEnv) :
    (create_and_download_ucs_afterPoll info true fn dl clEnv).2 = [] := by
  simp only [create_and_download_ucs_afterPoll]
  split
  · split
    · rfl
    · rfl
  · rfl

/-- Environment exercising the small-file confirmation prompt of
`_download_ucs`: the exact-path probe hits, the stat reports 100 bytes and
the operator answers `n`. -/
def c10env : UcsDlEnv :=
  ⟨⟨⟨200, some "ok"⟩, ⟨200, some ""⟩⟩, ⟨200, some "100 123"⟩, "n",
    ⟨200, some "READABLE"⟩, ⟨⟨200, some "100"⟩, 1, fun _ => UcsChunkResp.exn⟩⟩

/-- C10: in `_download_ucs`, a parsed remote stat size strictly below 1MB
triggers the interactive `Continue with download? (y/n)` prompt; a reply
other than a case-insensitive `y` abandons the download with `(False, 0)`
right after the prompt, a `y` lets it continue to the readability check,
and a size of at least 1MB never prompts. -/
theorem ucs_small_file_prompt (fn : String) (env : UcsDlEnv) (p : String)
    (s : Nat)
    (hp : (find_ucs_file fn env.find).1 = some p)
    (hs : statParsedSize env.stat = some s) :
    (s < 1024 * 1024 → strLower env.promptAnswer ≠ "y" →
      download_ucs fn env =
        ((false, 0), (find_ucs_file fn env.find).2 ++
          [Event.bashStat p, Event.prompt ucsPromptMsg])) ∧
    (s < 1024 * 1024 → strLower env.promptAnswer = "y" →
      Event.prompt ucsPromptMsg ∈ (download_ucs fn env).2 ∧
      Event.bashCheck p ∈ (download_ucs fn env).2) ∧
    (1024 * 1024 ≤ s →
      ∀ m, Event.prompt m ∉ (download_ucs fn env).2) := by
  refine ⟨?_, ?_, ?_⟩
  · intro hsm hans
    simp only [download_ucs, hp, hs]
    rw [if_pos (by simp [hsm, hans]), if_pos (by simp [hsm])]
    simp
  · intro hsm hans
    simp only [download_ucs, hp, hs]
    rw [if_neg (by simp [hans])]
    split
    · split <;> simp [hsm]
    · simp [hsm]
  · intro hbig m hmem
    have hf := find_ucs_file_tr fn env.find (Event.prompt m)
    have hc := ucs_download_chunked_tr p env.chunk (Event.prompt m)
    have hlt : ¬ s < 1024 * 1024 := Nat.not_lt.mpr hbig
    simp only [download_ucs, hp, hs] at hmem
    rw [if_neg (by simp [hlt])] at hmem
    have hmem2 : Event.prompt m ∈ (find_ucs_file fn env.find).2 ∨
        Event.prompt m ∈ (ucs_download_chunked p env.chunk).2 := by
      split at hmem <;> (try split at hmem) <;> simp [hlt] at hmem <;> tauto
    rcases hmem2 with hmem2 | hmem2
    · rcases hf hmem2 with h | h <;> simp at h
    · rcases hc hmem2 with h | ⟨a, b, h⟩ <;> simp at h

/-- C10 witness: in `c10env` the stat parses to 100 bytes, the answer `n`
is not `y`, and the run stops right after the prompt. -/
theorem ucs_small_file_prompt_witness :
    (find_ucs_file "a.ucs" c10env.find).1 = some "/var/local/ucs/a.ucs" ∧
    statParsedSize c10env.stat = some 100 ∧
    download_ucs "a.ucs" c10env =
      ((false, 0), (find_ucs_file "a.ucs" c10env.find).2 ++
        [Event.bashStat "/var/local/ucs/a.ucs", Event.prompt ucsPromptMsg]) :=
  ⟨by decide, by decide,
    (ucs_small_file_prompt "a.ucs" c10env "/var/local/ucs/a.ucs" 100
      (by decide) (by decide)).1 (by decide) (by decide)⟩

/-- C9: in `create_and_download_ucs`, a polling outcome of `None` is not
the end: the handler asks the device by remote shell whether the expected
UCS file exists anyway; when it does with a size strictly above 10MB the
run fabricates a COMPLETED task payload and proceeds to download (and
apply cleanup gating to) the artifact, and otherwise it fails right after
the shell check with no download call. -/
theorem ucs_poll_null_file_fallback (noDelete : Bool) (env : UcsRunEnv)
    (tid fn : String) (s : Nat)
    (hc : (create_ucs_task env.ucsFilename env.simpleFilename env.create).1 =
      some (tid, fn))
    (hw : (wait_for_ucs_completion tid env.timeout env.poll).1 = none)
    (hk : (check_if_ucs_exists_by_name fn env.checkByName).1 = (true, s)) :
    (10 * 1024 * 1024 < s →
      create_and_download_ucs noDelete env =
        ((create_and_download_ucs_afterPoll ⟨"COMPLETED", some tid, some fn⟩
            noDelete fn (download_ucs fn env.dl).1 env.cleanup).1,
          (create_ucs_task env.ucsFilename env.simpleFilename env.create).2 ++
          (wait_for_ucs_completion tid env.timeout env.poll).2 ++
          (check_if_ucs_exists_by_name fn env.checkByName).2 ++
          (download_ucs fn env.dl).2 ++
          (create_and_download_ucs_afterPoll ⟨"COMPLETED", some tid, some fn⟩
            noDelete fn (download_ucs fn env.dl).1 env.cleanup).2)) ∧
    (s ≤ 10 * 1024 * 1024 →
      create_and_download_ucs noDelete env =
        (false,
          (create_ucs_task env.ucsFilename env.simpleFilename env.create).2 ++
          (wait_for_ucs_completion tid env.timeout env.poll).2 ++
          (check_if_ucs_exists_by_name fn env.checkByName).2)) := by
  constructor
  · intro hbig
    simp only [create_and_download_ucs, hc, hw, hk]
    rw [if_pos (by simp; omega)]
  · intro hsmall
    simp only [create_and_download_ucs, hc, hw, hk]
    rw [if_neg (by simp; omega)]

/-- Environment for the poll-null fallback: task creation succeeds, the
zero deadline makes polling return nothing, and the on-disk check reports
a 20MB file. -/
def c9env : UcsRunEnv :=
  { create := ⟨false, 200, some "t1", "", false, 202, 0, none, false, 0⟩
    ucsFilename := "b.ucs"
    simpleFilename := "b.ucs"
    timeout := 0
    poll := ⟨fun _ => UcsPollResp.exn, fun _ => ⟨200, some "0"⟩,
      fun _ _ => ⟨200, some "0"⟩, UcsFinalResp.resp 500 ⟨"X", none, none⟩⟩
    checkByName := ⟨200, some "20971520"⟩
    dl := ⟨⟨⟨200, some "ok"⟩, ⟨200, some ""⟩⟩, ⟨200, some "nope"⟩, "",
      ⟨200, some "READABLE"⟩, ⟨⟨200, some "0"⟩, 1, fun _ => UcsChunkResp.exn⟩⟩
    cleanup := ⟨⟨200, some "EXISTS"⟩, ⟨200, some ""⟩, ⟨200, some "DELETED"⟩,
      ⟨200, some ""⟩, ⟨200, some "DELETED"⟩⟩ }

/-- C9 witness: in `c9env` creation yields task `t1`, polling yields
nothing, the shell check sees a 20MB file, and the run proceeds through
the fabricated-COMPLETED path. -/
theorem ucs_poll_null_file_fallback_witness :
    (create_ucs_task c9env.ucsFilename c9env.simpleFilename c9env.create).1 =
      some ("t1", "b.ucs") ∧
    (wait_for_ucs_completion "t1" c9env.timeout c9env.poll).1 = none ∧
    (check_if_ucs_exists_by_name "b.ucs" c9env.checkByName).1 =
      (true, 20971520) ∧
    create_and_download_ucs false c9env =
      ((create_and_download_ucs_afterPoll ⟨"COMPLETED", some "t1", some "b.ucs"⟩
          false "b.ucs" (download_ucs "b.ucs" c9env.dl).1 c9env.cleanup).1,
        (create_ucs_task c9env.ucsFilename c9env.simpleFilename c9env.create).2 ++
        (wait_for_ucs_completion "t1" c9env.timeout c9env.poll).2 ++
        (check_if_ucs_exists_by_name "b.ucs" c9env.checkByName).2 ++
        (download_ucs "b.ucs" c9env.dl).2 ++
        (create_and_download_ucs_afterPoll ⟨"COMPLETED", some "t1", some "b.ucs"⟩
          false "b.ucs" (download_ucs "b.ucs" c9env.dl).1 c9env.cleanup).2) :=
  ⟨by decide, by decide, by decide,
    (ucs_poll_null_file_fallback false c9env "t1" "b.ucs" 20971520
      (by decide) (by decide) (by decide)).1 (by decide)⟩

/-- A run in which task creation and polling succeed, the locator misses
everywhere (so the autodeploy strategy fails on exceptions) and the
file-transfer strategy moves the artifact into the staging directory and
fetches three bytes. -/
def c2env : QkRunEnv :=
  { create := ⟨false, 200, some "t1", "", 0, none⟩
    timeout := 1200
    poll := fun _ => QkPollResp.ok ⟨"SUCCEEDED", some "f.qkview", none⟩
    dl := { baseUrl := "10.0.0.1"
            find := ⟨fun _ => ⟨200, some "NOT_FOUND"⟩, fun _ => ⟨200, some ""⟩⟩
            m1 := ⟨10, fun _ => RangeResp.exn⟩
            m2 := ⟨200, 0, none, ⟨false, 0, [1, 2, 3]⟩⟩
            m3 := ⟨0, none, 0, none, ⟨false, 0, []⟩⟩ } }

/-- C2 counterexample: with the no-delete flag set, a QKView run that
downloads through the file-transfer strategy still issues the destructive
`rm -f` of the staged copy in `/var/config/rest/downloads`. -/
theorem no_delete_staging_rm_counterexample :
    Event.bashRm "/var/config/rest/downloads/f.qkview" ∈
      (create_and_download_qkview true c2env).2 ∧
    destructive (Event.bashRm "/var/config/rest/downloads/f.qkview") = true := by
  decide

/-- C2 amended: with the no-delete flag set, a UCS run issues no
destructive remote call at all, but a QKView run may still remove its
staged copy: every destructive event of a no-delete QKView run is a bash
`rm -f` of a file under `/var/config/rest/downloads/`. -/
theorem no_delete_destructive_calls_amended :
    (∀ (env : QkRunEnv) (e : Event),
      e ∈ (create_and_download_qkview true env).2 → destructive e = true →
      ∃ fn, e = Event.bashRm ("/var/config/rest/downloads/" ++ fn)) ∧
    (∀ (env : UcsRunEnv) (e : Event),
      e ∈ (create_and_download_ucs true env).2 → destructive e = false) := by
  constructor
  · intro env e he hd
    have h1 := create_qkview_task_tr env.create e
    have h2 := wait_for_qkview_completion_tr env.timeout env.poll e
    rcases hc : (create_qkview_task env.create).1 with _ | tid <;>
      simp only [create_and_download_qkview, hc] at he
    · exact absurd hd (by rw [h1 he]; decide)
    · rcases hw : (wait_for_qkview_completion env.timeout env.poll).1
        with _ | info <;> simp only [hw] at he
      · simp at he
        rcases he with he | he
        · exact absurd hd (by rw [h1 he]; decide)
        · exact absurd hd (by rw [h2 he]; decide)
      · rw [create_and_download_qkview_steps_noDelete] at he
        simp at he
        rcases he with he | he | he
        · exact absurd hd (by rw [h1 he]; decide)
        · exact absurd hd (by rw [h2 he]; decide)
        · exact download_qkview_destructive info env.dl e he hd
  · intro env e he
    have h1 := create_ucs_task_tr env.ucsFilename env.simpleFilename env.create e
    rcases hc : (create_ucs_task env.ucsFilename env.simpleFilename env.create).1
      with _ | tf <;> simp only [create_and_download_ucs, hc] at he
    · rcases h1 he with h | h <;> subst h <;> rfl
    · obtain ⟨tid, fn⟩ := tf
      have h2 := wait_for_ucs_completion_tr tid env.timeout env.poll e
      have h3 := download_ucs_destructive fn env.dl e
      rcases hw : (wait_for_ucs_completion tid env.timeout env.poll).1
        with _ | info <;> simp only [hw] at he
      · split at he <;>
          simp [check_if_ucs_exists_by_name_tr,
            create_and_download_ucs_afterPoll_noDelete] at he
        · rcases he with he | he | he | he
          · rcases h1 he with h | h <;> subst h <;> rfl
          · rcases h2 he with h | h <;> subst h <;> rfl
          · subst he; rfl
          · exact h3 he
        · rcases he with he | he | he
          · rcases h1 he with h | h <;> subst h <;> rfl
          · rcases h2 he with h | h <;> subst h <;> rfl
          · subst he; rfl
      · rw [create_and_download_ucs_afterPoll_noDelete] at he
        simp at he
        rcases he with he | he | he
        · rcases h1 he with h | h <;> subst h <;> rfl
        · rcases h2 he with h | h <;> subst h <;> rfl
        · exact h3 he

/-- A UCS run whose creation POST raises, so the whole trace is the single
creation event. -/
def c2uenv : UcsRunEnv :=
  { create := ⟨true, 0, none, "", false, 0, 0, none, false, 0⟩
    ucsFilename := "b.ucs"
    simpleFilename := "b.ucs"
    timeout := 0
    poll := ⟨fun _ => UcsPollResp.exn, fun _ => ⟨200, some "0"⟩,
      fun _ _ => ⟨200, some "0"⟩, UcsFinalResp.exn⟩
    checkByName := ⟨200, some "0"⟩
    dl := ⟨⟨⟨200, some "ok"⟩, ⟨200, some ""⟩⟩, ⟨200, some "nope"⟩, "",
      ⟨200, some "READABLE"⟩, ⟨⟨200, some "0"⟩, 1, fun _ => UcsChunkResp.exn⟩⟩
    cleanup := ⟨⟨200, some "EXISTS"⟩, ⟨200, some ""⟩, ⟨200, some "DELETED"⟩,
      ⟨200, some ""⟩, ⟨200, some "DELETED"⟩⟩ }

/-- C2 amended witness: the staged-copy removal of `c2env` is indeed an
`rm` under the staging directory, and the creation POST of a no-delete UCS
run is non-destructive. -/
theorem no_delete_destructive_calls_amended_witness :
    (∃ fn, Event.bashRm "/var/config/rest/downloads/f.qkview" =
      Event.bashRm ("/var/config/rest/downloads/" ++ fn)) ∧
    destructive Event.createTaskPost = false :=
  ⟨no_delete_destructive_calls_amended.1 c2env
      (Event.bashRm "/var/config/rest/downloads/f.qkview")
      (by decide) (by decide),
    no_delete_destructive_calls_amended.2 c2uenv Event.createTaskPost
      (by decide)⟩

end Bigscan
